import Mathlib

/-!
# musicd: the library index and its query builder (`src/library.c`)

A shallow embedding of `library.c`.  C strings are `String` values (scanned as
`List Char` where the code walks a `char *`), `library_field_t` is the enum's
integer value (`Nat`), `int64_t` values are `Int`, and the places where the
code narrows a 64-bit value to a C `int` are explicit (`to_int32`).  A C string
has no NUL inside, and the `String` values here are read the same way.
-/

namespace Library

set_option maxRecDepth 100000

/-! ## Field enumeration and the two field tables -/

/-- Modelled from the spec: the enumeration `library_field_t` of `library.h`
(absent from the sources).  The spec lists ten named fields and one synthetic
"all text" field; `field_names` has eleven entries and `field_maps` twelve, so
`LIBRARY_FIELD_NONE = 0`, the named fields are `1 .. 10`, and
`LIBRARY_FIELD_ALL = 11`. -/
def LIBRARY_FIELD_NONE : Nat := 0

/-- Modelled from the spec: see `LIBRARY_FIELD_NONE`. -/
def LIBRARY_FIELD_ALL : Nat := 11

/-- Modelled from the spec: see `LIBRARY_FIELD_NONE`; the field of `tracks.rowid`. -/
def LIBRARY_FIELD_TRACKID : Nat := 1
/-- Modelled from the spec: see `LIBRARY_FIELD_NONE`; the field of `urls.path`. -/
def LIBRARY_FIELD_URL : Nat := 2
/-- Modelled from the spec: see `LIBRARY_FIELD_NONE`; the field of `tracks.track`. -/
def LIBRARY_FIELD_TRACK : Nat := 3
/-- Modelled from the spec: see `LIBRARY_FIELD_NONE`; the field of `tracks.title`. -/
def LIBRARY_FIELD_TITLE : Nat := 4
/-- Modelled from the spec: see `LIBRARY_FIELD_NONE`; the field of `tracks.artist`. -/
def LIBRARY_FIELD_ARTISTID : Nat := 5
/-- Modelled from the spec: see `LIBRARY_FIELD_NONE`; the field of `artists.name`. -/
def LIBRARY_FIELD_ARTIST : Nat := 6
/-- Modelled from the spec: see `LIBRARY_FIELD_NONE`; the field of `tracks.album`. -/
def LIBRARY_FIELD_ALBUMID : Nat := 7
/-- Modelled from the spec: see `LIBRARY_FIELD_NONE`; the field of `albums.name`. -/
def LIBRARY_FIELD_ALBUM : Nat := 8
/-- Modelled from the spec: see `LIBRARY_FIELD_NONE`; the field of `tracks.start`. -/
def LIBRARY_FIELD_START : Nat := 9
/-- Modelled from the spec: see `LIBRARY_FIELD_NONE`; the field of `tracks.duration`. -/
def LIBRARY_FIELD_DURATION : Nat := 10

/-- The table `field_names[LIBRARY_FIELD_ALL]`. -/
def field_names : List String :=
  ["", "trackid", "url", "track", "title", "artistid", "artist", "albumid",
   "album", "start", "duration"]

/-- The table `field_maps[LIBRARY_FIELD_ALL + 1]`. -/
def field_maps : List String :=
  ["", "tracks.rowid", "urls.path", "tracks.track", "tracks.title",
   "tracks.artist", "artists.name", "tracks.album", "albums.name",
   "tracks.start", "tracks.duration",
   "(COALESCE(tracks.title, '') || COALESCE(artists.name, '') || COALESCE(albums.name, ''))"]

/-- The loop of `library_field_from_string`, started at index `i` with `n`
indices left: the first `j` in `i .. i+n-1` with `strcmp(string, field_names[j]) == 0`,
else `LIBRARY_FIELD_NONE`. -/
def field_from_string_loop (string : String) : Nat → Nat → Nat
  | _, 0 => LIBRARY_FIELD_NONE
  | i, n + 1 =>
    if string = field_names.getD i "" then i
    else field_from_string_loop string (i + 1) n

/-- `library_field_from_string`: `for (i = 1; i < LIBRARY_FIELD_ALL; ++i)`. -/
def library_field_from_string (string : String) : Nat :=
  field_from_string_loop string 1 (LIBRARY_FIELD_ALL - 1)

/-! ## The query object -/

/-- A prepared statement as far as `library.c` determines it: the SQL text handed
to `sqlite3_prepare_v2` and the `(index, text)` pairs of `sqlite3_bind_text`,
in call order. -/
structure statement where
  sql : String
  params : List (Nat × String)
deriving DecidableEq

/-- `struct library_query`.  `filters` is the array `filters[LIBRARY_FIELD_ALL + 1]`
read as a function of the index (`none` is the NULL pointer); `order` is the
content of the `string_t`. -/
structure library_query where
  stmt : Option statement
  filters : Nat → Option String
  limit : Int
  offset : Int
  order : String

/-- `library_query_new`: zeroed, empty `order`, `limit = -1`. -/
def library_query_new : library_query :=
  { stmt := none, filters := fun _ => none, limit := -1, offset := 0, order := "" }

/-- `library_query_filter`: `filters[field] = filter ? stringf("%%%s%%", filter) : NULL`. -/
def library_query_filter (query : library_query) (field : Nat)
    (filter : Option String) : library_query :=
  { query with
    filters := Function.update query.filters field
      (filter.map (fun f => "%" ++ f ++ "%")) }

/-- `library_query_limit`. -/
def library_query_limit (query : library_query) (limit : Int) : library_query :=
  { query with limit := limit }

/-- `library_query_offset`. -/
def library_query_offset (query : library_query) (offset : Int) : library_query :=
  { query with offset := offset }

/-- `library_query_sort`: a separator when `order` is not empty, then
`"%s COLLATE NOCASE %s"` with `field_maps[field]` and the direction. -/
def library_query_sort (query : library_query) (field : Nat)
    (descending : Bool) : library_query :=
  let order := if query.order.length > 0 then query.order ++ ", " else query.order
  { query with
    order := order ++ (field_maps.getD field "" ++ " COLLATE NOCASE "
      ++ (if descending then "DESC" else "ASC")) }

/-- The end of a pass of the loop: `sort = end; if (*sort == ',') ++sort`. -/
def skip_comma : List Char → List Char
  | [] => []
  | c :: r => if c = ',' then r else c :: r

/-- One pass of the `while` loop of `library_query_sort_from_string` per unit of
fuel, on the remaining text `sort`.  `none` only when the fuel runs out. -/
def sort_from_string_loop : Nat → library_query → List Char → Option (Int × library_query)
  | 0, _, _ => none
  | fuel + 1, query, sort =>
    match sort with
    | [] => some (0, query)
    | c :: cs =>
      let descending := decide (c = '-')
      let sort := if c = '-' then cs else c :: cs
      let name := sort.takeWhile (fun x => x != ',')
      let e := sort.dropWhile (fun x => x != ',')
      let field := library_field_from_string (String.mk name)
      if field = LIBRARY_FIELD_NONE then some (-1, query)
      else
        let query := library_query_sort query field descending
        sort_from_string_loop fuel query (skip_comma e)

/-- `library_query_sort_from_string`.  Every pass that does not return consumes
at least one character, so `length + 1` passes always suffice
(`sort_from_string_loop_eq`). -/
def library_query_sort_from_string (query : library_query) (sort : String) :
    Option (Int × library_query) :=
  sort_from_string_loop (sort.length + 1) query sort.data

/-- The fixed head of the statement built by `library_query_start`. -/
def select_head : String :=
  "SELECT tracks.rowid AS trackid, urls.path AS url, tracks.track AS track, tracks.title AS title, tracks.artist AS artistid, artists.name AS artist, tracks.album AS albumid, albums.name AS album, tracks.start AS start, tracks.duration AS duration FROM tracks JOIN urls ON tracks.url = urls.rowid LEFT OUTER JOIN artists ON tracks.artist = artists.rowid LEFT OUTER JOIN albums ON tracks.album = albums.rowid "

/-- The indices `1 .. LIBRARY_FIELD_ALL` visited by both `for` loops of
`library_query_start`. -/
def field_indices : List Nat := List.range' 1 LIBRARY_FIELD_ALL

/-- Body of the first loop of `library_query_start` on the state `(sql, join)`. -/
def where_step (query : library_query) (st : String × Bool) (i : Nat) : String × Bool :=
  match query.filters i with
  | none => st
  | some _ =>
    let sql := if !st.2 then st.1 ++ "WHERE " else st.1 ++ " AND "
    (sql ++ (field_maps.getD i "" ++ " LIKE ?"), true)

/-- Body of the second loop of `library_query_start` on the state `(bindings, n)`:
`sqlite3_bind_text(stmt, n, filters[i], -1, NULL); ++n`. -/
def bind_step (query : library_query) (st : List (Nat × String) × Nat) (i : Nat) :
    List (Nat × String) × Nat :=
  match query.filters i with
  | none => st
  | some f => (st.1 ++ [(st.2, f)], st.2 + 1)

/-- The test `query->limit > 0 || query->offset > 0` of `library_query_start`
and the two numbers printed after it. -/
def limit_clause (query : library_query) : Option (Int × Int) :=
  if query.limit > 0 ∨ query.offset > 0 then some (query.limit, query.offset) else none

/-- The SQL text assembled by `library_query_start` (`PRId64` prints decimal). -/
def library_query_sql (query : library_query) : String :=
  let sql := (field_indices.foldl (where_step query) (select_head, false)).1
  let sql := if query.order.length > 0 then sql ++ (" ORDER BY " ++ query.order) else sql
  match limit_clause query with
  | some (l, o) => sql ++ (" LIMIT " ++ toString l ++ " OFFSET " ++ toString o)
  | none => sql

/-- The bindings made by the second loop of `library_query_start`. -/
def library_query_binds (query : library_query) : List (Nat × String) :=
  (field_indices.foldl (bind_step query) ([], 1)).1

/-- `library_query_start`.  Whether `sqlite3_prepare_v2` accepts the text is the
storage engine's answer, the input `prepare_ok`; on failure the statement
handle is NULL and `-1` is returned. -/
def library_query_start (prepare_ok : String → Bool) (query : library_query) :
    Int × library_query :=
  let sql := library_query_sql query
  if prepare_ok sql then
    (0, { query with stmt := some { sql := sql, params := library_query_binds query } })
  else
    (-1, { query with stmt := none })

/-! ## Meaning of the compiled statement in the storage engine

The engine is an external collaborator (SQLite).  What follows is the meaning
of the three clauses `library_query_start` emits: `LIKE` with the wildcards `%`
and `_`, with only the ASCII letters `A`-`Z` folded to lower case, and with the
engine's bound on the byte length of a pattern; a NULL operand making the
predicate fail; and `LIMIT n OFFSET m` as drop `m` then take `n` with a negative
`n` meaning no bound. -/

/-- Some suffix of the text satisfies `m`: the wildcard `%`. -/
def like_any (m : List Char → Bool) : List Char → Bool
  | [] => m []
  | c :: t => m (c :: t) || like_any m t

/-- The pattern comparison of `LIKE`, by recursion on the pattern: `%` matches
any run of characters, `_` any one character, and any other character matches
itself, the ASCII letters `A`-`Z` being folded to lower case (`Char.toLower`)
and no other character being folded. -/
def like_compare : List Char → List Char → Bool
  | [] => fun t => t.isEmpty
  | a :: p =>
    if a = '%' then like_any (like_compare p)
    else if a = '_' then fun t =>
      match t with
      | [] => false
      | _ :: t => like_compare p t
    else fun t =>
      match t with
      | [] => false
      | c :: t => (a.toLower == c.toLower) && like_compare p t

/-- The engine's default bound on the length of a `LIKE` pattern, in bytes
(`SQLITE_MAX_LIKE_PATTERN_LENGTH`). -/
def like_pattern_limit : Nat := 50000

/-- SQL `text LIKE pattern` as far as yielding a row goes.  A pattern of more
than `like_pattern_limit` UTF-8 bytes makes the step fail ("LIKE or GLOB pattern
too complex"), so no row passes it; within the bound the pattern comparison
decides. -/
def sql_like (pattern text : String) : Bool :=
  decide (pattern.utf8ByteSize ≤ like_pattern_limit) && like_compare pattern.data text.data

/-- Substring containment with the ASCII letters `A`-`Z` folded to lower case
and every other character compared exactly: the case-insensitivity of the
engine's `LIKE`. -/
def contains_ascii_nocase (text v : String) : Prop :=
  v.data.map Char.toLower <:+: text.data.map Char.toLower

instance (text v : String) : Decidable (contains_ascii_nocase text v) := by
  unfold contains_ascii_nocase; infer_instance

/-- Case folding that does not stop at ASCII, as far as the Latin-1 letters: the
capitals `À`-`Þ` (without `×`) go to their small letters as `A`-`Z` do. -/
def fold_case_latin1 (c : Char) : Char :=
  if 192 ≤ c.toNat ∧ c.toNat ≤ 222 ∧ c.toNat ≠ 215 then Char.ofNat (c.toNat + 32)
  else c.toLower

/-- Case-insensitive substring containment without the restriction to ASCII, the
spec's unqualified reading of a filter, as far as the Latin-1 letters. -/
def contains_nocase_latin1 (text v : String) : Prop :=
  v.data.map fold_case_latin1 <:+: text.data.map fold_case_latin1

instance (text v : String) : Decidable (contains_nocase_latin1 text v) := by
  unfold contains_nocase_latin1; infer_instance

/-- A filter value of 50000 letters `a`: wrapped in `%` it is 50002 bytes long. -/
def long_value : String := String.mk (List.replicate 50000 'a')

/-- A row of the fixed join `tracks JOIN urls LEFT OUTER JOIN artists LEFT OUTER
JOIN albums`, column by column in `SELECT` order; `none` is NULL. -/
structure result_row where
  trackid : Int
  url : Option String
  track : Int
  title : Option String
  artistid : Int
  artist : Option String
  albumid : Int
  album : Option String
  start : Int
  duration : Int
deriving DecidableEq

/-- The text the engine compares for the column expression `field_maps[i]`
(numbers in decimal; `COALESCE(x, '')` turns NULL into the empty text). -/
def field_text (i : Nat) (r : result_row) : Option String :=
  match i with
  | 1 => some (toString r.trackid)
  | 2 => r.url
  | 3 => some (toString r.track)
  | 4 => r.title
  | 5 => some (toString r.artistid)
  | 6 => r.artist
  | 7 => some (toString r.albumid)
  | 8 => r.album
  | 9 => some (toString r.start)
  | 10 => some (toString r.duration)
  | 11 => some (r.title.getD "" ++ r.artist.getD "" ++ r.album.getD "")
  | _ => none

/-- The fields with a filter set, in the order the first loop visits them: the
columns of the `WHERE` predicates, first to last. -/
def set_fields (query : library_query) : List Nat :=
  field_indices.filter (fun i => (query.filters i).isSome)

/-- The value bound to placeholder `n` (the last binding of an index wins). -/
def param_value (params : List (Nat × String)) (n : Nat) : Option String :=
  params.foldl (fun acc b => if b.1 = n then some b.2 else acc) none

/-- The `WHERE` clause on one row: predicate `k` (from 1) compares its column
with the value bound to placeholder `k`. -/
def where_holds (params : List (Nat × String)) : Nat → List Nat → result_row → Bool
  | _, [], _ => true
  | k, i :: rest, r =>
    (match param_value params k, field_text i r with
     | some p, some t => sql_like p t
     | _, _ => false) && where_holds params (k + 1) rest r

/-- `LIMIT l OFFSET o`. -/
def sql_limit (l o : Int) (rows : List result_row) : List result_row :=
  let rest := rows.drop o.toNat
  if l < 0 then rest else rest.take l.toNat

/-- The row sequence `library_query_next_track` steps through after
`library_query_start`: the rows of the join `table` passing the `WHERE` clause,
put in order by the engine (`order_by`, a function of the `ORDER BY` text), cut
by `LIMIT`/`OFFSET` when the clause was emitted.  No rows without a statement,
and none when a step fails on a pattern over the bound: a row is yielded only
after every predicate has been evaluated on it. -/
def query_rows (order_by : String → List result_row → List result_row)
    (table : List result_row) (query : library_query) : List result_row :=
  match query.stmt with
  | none => []
  | some st =>
    let rows := order_by query.order
      (table.filter (where_holds st.params 1 (set_fields query)))
    match limit_clause query with
    | some (l, o) => sql_limit l o rows
    | none => rows

/-- The paging loop of the spec's pagination property: run the query with
`limit = L` at offsets `k * L, (k + 1) * L, ...` and concatenate the pages up to
the first empty one.  `none` only when the fuel runs out. -/
def collect_pages (run : library_query → List result_row) (query : library_query)
    (L : Int) : Nat → Nat → Option (List result_row)
  | 0, _ => none
  | fuel + 1, k =>
    let page := run (library_query_offset (library_query_limit query L) (L * k))
    if page.isEmpty then some []
    else (collect_pages run query L fuel (k + 1)).map (fun more => page ++ more)

/-! ## The database behind `db_handle()`

The storage engine (SQLite, reached through `db.h`) is an external
collaborator.  Its state is the six tables the statements of `library.c` touch,
the value `sqlite3_last_insert_rowid` reports, and the engine failures still to
come: `faults` is consumed one entry per `sqlite3_prepare_v2` and one per
`sqlite3_step` (`true` = that call fails); the empty list means no failure. -/

/-- A 64-bit value read through `sqlite3_column_int` or passed to
`sqlite3_bind_int`: narrowed to a 32-bit C `int` (low 32 bits, two's complement). -/
def to_int32 (x : Int) : Int := (x + 2147483648) % 4294967296 - 2147483648

/-- A row of `artists`. -/
structure artist_row where
  rowid : Int
  name : String
deriving DecidableEq

/-- A row of `albums`. -/
structure album_row where
  rowid : Int
  name : String
  image : Option Int
deriving DecidableEq

/-- A row of `urls`; also the `library_url_t` handed to callbacks. -/
structure url_row where
  rowid : Int
  path : String
  directory : Int
  mtime : Option Int
deriving DecidableEq

/-- A row of `directories`; also the `library_directory_t` handed to callbacks. -/
structure directory_row where
  rowid : Int
  path : String
  parent : Int
  mtime : Option Int
deriving DecidableEq

/-- A row of `tracks`. -/
structure track_row where
  rowid : Int
  url : Int
  track : Int
  title : Option String
  artist : Int
  album : Int
  start : Int
  duration : Int
deriving DecidableEq

/-- A row of `images`. -/
structure image_row where
  rowid : Int
  url : Int
  album : Option Int
deriving DecidableEq

/-- Modelled from the spec: the schema created by `db.c` (absent from the
sources), section 6: `urls(path unique, directory, mtime)`,
`directories(path unique, parent, mtime)`, `tracks(url, track, title, artist,
album, start, duration)`, `artists(name unique)`, `albums(name unique, image)`,
`images(url, album)`; a column an `INSERT` does not name is NULL (`none`). -/
structure database where
  artists : List artist_row
  albums : List album_row
  urls : List url_row
  directories : List directory_row
  tracks : List track_row
  images : List image_row
  last_insert_rowid : Int
  faults : List Bool
deriving DecidableEq

/-- An empty library on an engine that does not fail. -/
def empty_database : database :=
  { artists := [], albums := [], urls := [], directories := [], tracks := [], images := [],
    last_insert_rowid := 0, faults := [] }

/-- The rowid the engine gives a new row: 1 in an empty table, else one more
than the largest in use (the largest 64-bit value is never reached here). -/
def next_rowid : List Int → Int
  | [] => 1
  | x :: xs => xs.foldl max x + 1

/-- Consume the engine's answer for the next prepare or step. -/
def take_fault (d : database) : Bool × database :=
  match d.faults with
  | [] => (false, d)
  | f :: fs => (f, { d with faults := fs })

/-- What one `sqlite3_step` reports: a row (its column 0 as an integer, NULL as
`none`), `SQLITE_DONE`, or an error code. -/
inductive step_result where
  | row (column0 : Option Int)
  | done
  | error
deriving DecidableEq

/-- `prepare_query`: `valid` says whether the text names existing tables and
columns; the engine may also fail on its own. -/
def prepare_query (d : database) (valid : Bool) : Bool × database :=
  let (f, d) := take_fault d
  (valid && !f, d)

/-- `execute`: one step; `SQLITE_DONE` and `SQLITE_ROW` are success. -/
def execute (d : database) (stmt : database → step_result × database) : Bool × database :=
  let (f, d) := take_fault d
  if f then (false, d)
  else
    match stmt d with
    | (step_result.error, d) => (false, d)
    | (_, d) => (true, d)

/-- `execute_scalar`: one step; a row gives `sqlite3_column_int(query, 0)` (a C
`int`, NULL read as 0), `SQLITE_DONE` gives 0, anything else `-1`. -/
def execute_scalar (d : database) (stmt : database → step_result × database) :
    Int × database :=
  let (f, d) := take_fault d
  if f then (-1, d)
  else
    match stmt d with
    | (step_result.row v, d) => (to_int32 (v.getD 0), d)
    | (step_result.done, d) => (0, d)
    | (step_result.error, d) => (-1, d)

/-! ### The statements of `library.c`, as the engine runs them -/

/-- The tables and unique text columns `field_rowid` and `field_rowid_create`
are called with. -/
def table_has_field (table field : String) : Bool :=
  (table, field) ∈ [("artists", "name"), ("albums", "name"), ("urls", "path"),
    ("directories", "path")]

/-- `SELECT rowid FROM <table> WHERE <field> = ?`. -/
def select_rowid (table field value : String) (d : database) : step_result × database :=
  let found : Option Int :=
    if table = "artists" ∧ field = "name" then
      (d.artists.find? (fun r => r.name = value)).map (fun r => r.rowid)
    else if table = "albums" ∧ field = "name" then
      (d.albums.find? (fun r => r.name = value)).map (fun r => r.rowid)
    else if table = "urls" ∧ field = "path" then
      (d.urls.find? (fun r => r.path = value)).map (fun r => r.rowid)
    else if table = "directories" ∧ field = "path" then
      (d.directories.find? (fun r => r.path = value)).map (fun r => r.rowid)
    else none
  match found with
  | some id => (step_result.row (some id), d)
  | none => (step_result.done, d)

/-- `INSERT INTO <table> (<field>) VALUES (?)` for the two tables
`field_rowid_create` is called with; the unique constraint on the name rejects
a second row with the same name. -/
def insert_name (table field value : String) (d : database) : step_result × database :=
  if table = "artists" ∧ field = "name" then
    if d.artists.any (fun r => r.name = value) then (step_result.error, d)
    else
      let id := next_rowid (d.artists.map (fun r => r.rowid))
      (step_result.done,
        { d with artists := d.artists ++ [{ rowid := id, name := value }],
                 last_insert_rowid := id })
  else if table = "albums" ∧ field = "name" then
    if d.albums.any (fun r => r.name = value) then (step_result.error, d)
    else
      let id := next_rowid (d.albums.map (fun r => r.rowid))
      (step_result.done,
        { d with albums := d.albums ++ [{ rowid := id, name := value, image := none }],
                 last_insert_rowid := id })
  else (step_result.error, d)

/-- `INSERT INTO tracks (url, track, title, artist, album, start, duration)
VALUES(?, ?, ?, ?, ?, ?, ?)`. -/
def insert_track (url track : Int) (title : Option String) (artist album start duration : Int)
    (d : database) : step_result × database :=
  let id := next_rowid (d.tracks.map (fun r => r.rowid))
  (step_result.done,
    { d with
      tracks := d.tracks ++ [
        { rowid := id, url := url, track := track, title := title,
          artist := artist, album := album, start := start, duration := duration }],
      last_insert_rowid := id })

/-- `INSERT INTO urls (path, directory) VALUES(?, ?)`, `path` unique. -/
def insert_url (path : String) (directory : Int) (d : database) : step_result × database :=
  if d.urls.any (fun r => r.path = path) then (step_result.error, d)
  else
    let id := next_rowid (d.urls.map (fun r => r.rowid))
    (step_result.done,
      { d with
        urls := d.urls ++ [{ rowid := id, path := path, directory := directory, mtime := none }],
        last_insert_rowid := id })

/-- `INSERT INTO directories (path, parent) VALUES(?, ?)`, `path` unique. -/
def insert_directory (path : String) (parent : Int) (d : database) :
    step_result × database :=
  if d.directories.any (fun r => r.path = path) then (step_result.error, d)
  else
    let id := next_rowid (d.directories.map (fun r => r.rowid))
    (step_result.done,
      { d with
        directories := d.directories ++ [
          { rowid := id, path := path, parent := parent, mtime := none }],
        last_insert_rowid := id })

/-- `SELECT mtime FROM urls WHERE rowid = ?`. -/
def select_url_mtime (url : Int) (d : database) : step_result × database :=
  match d.urls.find? (fun r => r.rowid = url) with
  | some r => (step_result.row r.mtime, d)
  | none => (step_result.done, d)

/-- `UPDATE urls SET mtime = ? WHERE rowid = ?`. -/
def update_url_mtime (mtime url : Int) (d : database) : step_result × database :=
  (step_result.done,
    { d with
      urls := d.urls.map (fun r => if r.rowid = url then { r with mtime := some mtime } else r) })

/-- `SELECT mtime FROM directories WHERE rowid = ?`. -/
def select_directory_mtime (directory : Int) (d : database) : step_result × database :=
  match d.directories.find? (fun r => r.rowid = directory) with
  | some r => (step_result.row r.mtime, d)
  | none => (step_result.done, d)

/-- `UPDATE directories SET mtime = ? WHERE rowid = ?`. -/
def update_directory_mtime (mtime directory : Int) (d : database) :
    step_result × database :=
  (step_result.done,
    { d with
      directories := d.directories.map (fun r =>
        if r.rowid = directory then { r with mtime := some mtime } else r) })

/-- `DELETE FROM tracks WHERE url = ?`. -/
def delete_tracks_of_url (url : Int) (d : database) : step_result × database :=
  (step_result.done, { d with tracks := d.tracks.filter (fun r => r.url != url) })

/-- `DELETE FROM images WHERE url = ?`. -/
def delete_images_of_url (url : Int) (d : database) : step_result × database :=
  (step_result.done, { d with images := d.images.filter (fun r => r.url != url) })

/-- `DELETE FROM urls WHERE rowid = ?`. -/
def delete_url_row (url : Int) (d : database) : step_result × database :=
  (step_result.done, { d with urls := d.urls.filter (fun r => r.rowid != url) })

/-- `DELETE FROM directories WHERE rowid = ?`. -/
def delete_directory_row (directory : Int) (d : database) : step_result × database :=
  (step_result.done,
    { d with directories := d.directories.filter (fun r => r.rowid != directory) })

/-- The rows of the fixed join `tracks JOIN urls ON tracks.url = urls.rowid LEFT
OUTER JOIN artists ON tracks.artist = artists.rowid LEFT OUTER JOIN albums ON
tracks.album = albums.rowid` (rowids are unique, so each track joins at most
one row of each table). -/
def join_rows (d : database) : List result_row :=
  d.tracks.filterMap (fun t =>
    (d.urls.find? (fun u => u.rowid = t.url)).map (fun u =>
      { trackid := t.rowid, url := some u.path, track := t.track, title := t.title,
        artistid := t.artist,
        artist := (d.artists.find? (fun a => a.rowid = t.artist)).map (fun a => a.name),
        albumid := t.album,
        album := (d.albums.find? (fun a => a.rowid = t.album)).map (fun a => a.name),
        start := t.start, duration := t.duration }))

/-! ### The entity repository -/

/-- `field_rowid`. -/
def field_rowid (d : database) (table field value : String) : Int × database :=
  let (ok, d) := prepare_query d (table_has_field table field)
  if !ok then (-1, d)
  else execute_scalar d (select_rowid table field value)

/-- `field_rowid_create`: the result of the insert is assigned and not used; the
function returns `sqlite3_last_insert_rowid` whatever happened. -/
def field_rowid_create (d : database) (table field value : String) : Int × database :=
  let (result, d) := field_rowid d table field value
  if result > 0 then (result, d)
  else
    let (ok, d) := prepare_query d (table_has_field table field)
    let d := if !ok then d else (execute_scalar d (insert_name table field value)).2
    (d.last_insert_rowid, d)

/-- Modelled from the spec: `track_t` of `track.h` (absent from the sources), with
the fields `library.c` reads and writes; `track`, `start` and `duration` are C
`int`s, the two ids are `int64_t`, a `none` string is a NULL pointer. -/
structure track_t where
  id : Int
  path : Option String
  track : Int
  title : Option String
  artistid : Int
  artist : Option String
  albumid : Int
  album : Option String
  start : Int
  duration : Int
deriving DecidableEq

/-- `library_track_add`. -/
def library_track_add (d : database) (track : track_t) (url : Int) : Int × database :=
  let (ok, d) := prepare_query d true
  if !ok then (-1, d)
  else
    let (artist, d) :=
      match track.artist with
      | some a => field_rowid_create d "artists" "name" a
      | none => (0, d)
    let (album, d) :=
      match track.album with
      | some a => field_rowid_create d "albums" "name" a
      | none => (0, d)
    let (ok, d) := execute d
      (insert_track url track.track track.title artist album track.start track.duration)
    if !ok then (-1, d) else (d.last_insert_rowid, d)

/-- `library_url`. -/
def library_url (d : database) (path : String) (directory : Int) : Int × database :=
  let (result, d) := field_rowid d "urls" "path" path
  if result ≠ 0 ∨ directory ≤ 0 then (result, d)
  else
    let (ok, d) := prepare_query d true
    if !ok then (-1, d)
    else
      let (result, d) := execute_scalar d (insert_url path directory)
      (if result ≠ 0 then result else d.last_insert_rowid, d)

/-- `library_url_mtime`. -/
def library_url_mtime (d : database) (url : Int) : Int × database :=
  let (ok, d) := prepare_query d true
  if !ok then (-1, d) else execute_scalar d (select_url_mtime url)

/-- `library_url_mtime_set`. -/
def library_url_mtime_set (d : database) (url mtime : Int) : database :=
  let (ok, d) := prepare_query d true
  if !ok then d else (execute d (update_url_mtime mtime url)).2

/-- `library_url_clear`. -/
def library_url_clear (d : database) (url : Int) : database :=
  let (ok, d) := prepare_query d true
  if !ok then d
  else
    let d := (execute d (delete_tracks_of_url url)).2
    let (ok, d) := prepare_query d true
    if !ok then d else (execute d (delete_images_of_url url)).2

/-- `library_url_delete`. -/
def library_url_delete (d : database) (url : Int) : database :=
  let d := library_url_clear d url
  let (ok, d) := prepare_query d true
  if !ok then d else (execute d (delete_url_row url)).2

/-- `library_directory`. -/
def library_directory (d : database) (path : String) (parent : Int) : Int × database :=
  let (result, d) := field_rowid d "directories" "path" path
  if result ≠ 0 ∨ parent < 0 then (result, d)
  else
    let (ok, d) := prepare_query d true
    if !ok then (-1, d)
    else
      let (result, d) := execute_scalar d (insert_directory path parent)
      (if result ≠ 0 then result else d.last_insert_rowid, d)

/-- `library_directory_mtime`. -/
def library_directory_mtime (d : database) (directory : Int) : Int × database :=
  let (ok, d) := prepare_query d true
  if !ok then (-1, d) else execute_scalar d (select_directory_mtime directory)

/-- `library_directory_mtime_set`. -/
def library_directory_mtime_set (d : database) (directory mtime : Int) : database :=
  let (ok, d) := prepare_query d true
  if !ok then d else (execute d (update_directory_mtime mtime directory)).2

/-- The `while ((result = sqlite3_step(query)) == SQLITE_ROW)` loop of the
`library_iterate_*` functions over the rows the statement yields: every step
may fail, the callback may stop the loop by returning `false`, and the last
step reports `SQLITE_DONE`.  The rows are those matching when the statement
starts; the callbacks of the cascading delete remove only the row just
visited and rows that never match the same statement (in an acyclic tree), so
a cursor that reads the table as it goes visits the same rows.  `none` only
when a callback runs out of fuel. -/
def iterate_loop {α : Type} (callback : database → α → Option (Bool × database)) :
    List α → database → Option database
  | [], d => some (take_fault d).2
  | r :: rs, d =>
    let (f, d) := take_fault d
    if f then some d
    else
      match callback d r with
      | none => none
      | some (true, d) => iterate_loop callback rs d
      | some (false, d) => some d

/-- `library_iterate_urls_by_directory`:
`SELECT rowid, path, mtime, directory FROM urls WHERE directory = ?`. -/
def library_iterate_urls_by_directory (d : database) (directory : Int)
    (callback : database → url_row → Option (Bool × database)) : Option database :=
  let (ok, d) := prepare_query d true
  if !ok then some d
  else iterate_loop callback (d.urls.filter (fun r => r.directory = directory)) d

/-- `library_iterate_directories`:
`SELECT rowid, path, mtime, parent FROM directories WHERE parent = ?`. -/
def library_iterate_directories (d : database) (parent : Int)
    (callback : database → directory_row → Option (Bool × database)) : Option database :=
  let (ok, d) := prepare_query d true
  if !ok then some d
  else iterate_loop callback (d.directories.filter (fun r => r.parent = parent)) d

/-- `delete_urls_cb`. -/
def delete_urls_cb (d : database) (url : url_row) : Option (Bool × database) :=
  some (true, library_url_delete d url.rowid)

/-- `library_directory_delete`, with `delete_directories_cb` inlined as the
callback; one unit of fuel per level of recursion, `none` only when the fuel
runs out. -/
def library_directory_delete : Nat → database → Int → Option database
  | 0, _, _ => none
  | fuel + 1, d, directory =>
    match library_iterate_urls_by_directory d directory delete_urls_cb with
    | none => none
    | some d =>
      match library_iterate_directories d directory
          (fun d r => (library_directory_delete fuel d r.rowid).map (fun d => (true, d))) with
      | none => none
      | some d =>
        let (ok, d) := prepare_query d true
        if !ok then some d else some (execute d (delete_directory_row directory)).2

/-- `library_directory_tracks_count`: `SELECT COUNT(tracks.rowid) FROM directories
JOIN urls ON urls.directory = directories.rowid JOIN tracks ON tracks.url =
urls.rowid WHERE directories.rowid = ?`. -/
def library_directory_tracks_count (d : database) (directory : Int) : Int × database :=
  let (ok, d) := prepare_query d true
  if !ok then (-1, d)
  else execute_scalar d (fun d =>
    (step_result.row (some ((d.directories.filter (fun r => r.rowid = directory)).map
      (fun r => ((d.urls.filter (fun u => u.directory = r.rowid)).map
        (fun u => ((d.tracks.filter (fun t => t.url = u.rowid)).length : Int))).sum)).sum), d))

/-- `dup_or_empty`. -/
def dup_or_empty (src : Option String) : Option String := some (src.getD "")

/-- `library_track_by_id`: the statement is prepared with `sqlite3_prepare_v2`
directly, the id is bound with `sqlite3_bind_int` (a C `int`), and the first row
of the join with that track rowid is copied out. -/
def library_track_by_id (d : database) (id : Int) : Option track_t × database :=
  let (f, d) := take_fault d
  if f then (none, d)
  else
    let (f, d) := take_fault d
    if f then (none, d)
    else
      match (join_rows d).find? (fun r => r.trackid = to_int32 id) with
      | none => (none, d)
      | some r =>
        (some { id := r.trackid, path := dup_or_empty r.url, track := to_int32 r.track,
                title := dup_or_empty r.title, artistid := r.artistid,
                artist := dup_or_empty r.artist, albumid := r.albumid,
                album := dup_or_empty r.album, start := to_int32 r.start,
                duration := to_int32 r.duration }, d)

/-! ## Library states used as concrete inputs -/

/-- The spec's scenario "new file indexed" up to the url: directory `/music`
(rowid 1) holding the url `/music/a.flac` (rowid 1). -/
def music_library : database :=
  (library_url (library_directory empty_database "/music" 0).2 "/music/a.flac" 1).2

/-- The track record of the scenario. -/
def song : track_t :=
  { id := 0, path := none, track := 1, title := some "Song", artistid := 0,
    artist := some "Band", albumid := 0, album := some "LP", start := 0, duration := 180 }

/-- An artists table whose only row has a rowid above the 32-bit range. -/
def wide_artists : database :=
  { empty_database with artists := [{ rowid := 4294967296, name := "x" }] }

/-- The scenario's library with one earlier track at the last 32-bit rowid. -/
def wide_tracks : database :=
  { music_library with
    tracks := [
      { rowid := 2147483647, url := 1, track := 1, title := some "Old", artist := 0,
        album := 0, start := 0, duration := 1 }] }

/-! ## The cascade as the spec describes it -/

/-- Directory `x` is `D` or a descendant of `D`: following `parent` from `x`
through rows of the table reaches `D`. -/
inductive in_subtree (dirs : List directory_row) (D : Int) : Int → Prop
  | root : in_subtree dirs D D
  | child (r : directory_row) : r ∈ dirs → in_subtree dirs D r.parent →
      in_subtree dirs D r.rowid

/-- The library without the urls whose directory is in `S`, and without the
tracks and images of those urls. -/
def drop_urls (d : database) (S : Int → Bool) : database :=
  { d with
    urls := d.urls.filter (fun u => not (S u.directory)),
    tracks := d.tracks.filter
      (fun t => not (d.urls.any (fun u => u.rowid == t.url && S u.directory))),
    images := d.images.filter
      (fun i => not (d.urls.any (fun u => u.rowid == i.url && S u.directory))) }

/-- The library without the directories in `S`. -/
def drop_directories (d : database) (S : Int → Bool) : database :=
  { d with directories := d.directories.filter (fun r => not (S r.rowid)) }

/-- The library with the directories in `S` gone together with everything that
exists only under them; every other row, and the order of the rows, is kept. -/
def remove_subtree (d : database) (S : Int → Bool) : database :=
  drop_directories (drop_urls d S) S

/-- The library without the urls whose rowid is in `ids`, their tracks and their
images: what a run of `library_url_delete` over `ids` leaves. -/
def drop_url_ids (d : database) (ids : List Int) : database :=
  { d with
    tracks := d.tracks.filter (fun r => not (ids.contains r.url)),
    images := d.images.filter (fun r => not (ids.contains r.url)),
    urls := d.urls.filter (fun r => not (ids.contains r.rowid)) }

/-- The engine does not fail and rowids are unique within `directories` and
within `urls`. -/
def consistent (d : database) : Prop :=
  d.faults = [] ∧ (d.directories.map (fun r => r.rowid)).Nodup ∧
    (d.urls.map (fun r => r.rowid)).Nodup

/-- The parent links are acyclic: `rank` falls strictly from every directory's
parent to the directory. -/
def ranked (rank : Int → Nat) (d : database) : Prop :=
  ∀ r ∈ d.directories, rank r.rowid < rank r.parent

/-- A library for the cascade: `/music` (1) with the child `/music/a` (2), and
`/other` (3) beside it; one url with one track in each, and one image under
`/music/a`. -/
def tree_library : database :=
  { empty_database with
    directories := [
      { rowid := 1, path := "/music", parent := 0, mtime := none },
      { rowid := 2, path := "/music/a", parent := 1, mtime := none },
      { rowid := 3, path := "/other", parent := 0, mtime := none }],
    urls := [
      { rowid := 1, path := "/music/x.flac", directory := 1, mtime := none },
      { rowid := 2, path := "/music/a/y.flac", directory := 2, mtime := none },
      { rowid := 3, path := "/other/z.flac", directory := 3, mtime := none }],
    tracks := [
      { rowid := 1, url := 1, track := 1, title := some "X", artist := 1, album := 1,
        start := 0, duration := 10 },
      { rowid := 2, url := 2, track := 1, title := some "Y", artist := 1, album := 1,
        start := 0, duration := 20 },
      { rowid := 3, url := 3, track := 1, title := some "Z", artist := 1, album := 1,
        start := 0, duration := 30 }],
    images := [{ rowid := 1, url := 2, album := none }],
    artists := [{ rowid := 1, name := "Band" }],
    albums := [{ rowid := 1, name := "LP", image := none }] }

/-- A rank for `tree_library`: the root level 0 above `/music` above `/music/a`. -/
def tree_rank (x : Int) : Nat :=
  if x = 0 then 3 else if x = 1 then 2 else if x = 2 then 1 else 0

/-! ## The sort string as the spec reads it -/

/-- The comma-separated tokens of a sort string: the text between commas, where
the empty string has no token and a comma at the very end opens no further
token (the loop of `library_query_sort_from_string` stops there). -/
def sort_tokens : List Char → List (List Char)
  | [] => []
  | c :: cs =>
    if c = ',' then [] :: sort_tokens cs
    else
      match sort_tokens cs with
      | [] => [[c]]
      | t :: ts => (c :: t) :: ts

/-- A token without its one optional leading `-`. -/
def strip_dash : List Char → List Char
  | [] => []
  | c :: cs => if c = '-' then cs else c :: cs

/-- The field a token names, `LIBRARY_FIELD_NONE` when it names none. -/
def token_field (t : List Char) : Nat :=
  library_field_from_string (String.mk (strip_dash t))

/-- Token by token: stop with `-1` at the first token naming no field, append a
sort key for every token before it. -/
def sort_tokens_run (query : library_query) : List (List Char) → Int × library_query
  | [] => (0, query)
  | t :: ts =>
    if token_field t = LIBRARY_FIELD_NONE then (-1, query)
    else sort_tokens_run (library_query_sort query (token_field t) (decide (t.head? = some '-'))) ts

/-! ## The compiled text as the spec describes it -/

/-- One predicate of the `WHERE` clause: the column of field `i`, then `LIKE ?`. -/
def like_predicate (i : Nat) : String := field_maps.getD i "" ++ " LIKE ?"

/-- The predicates after the first, each introduced by `AND`. -/
def and_text : List Nat → String
  | [] => ""
  | i :: rest => " AND " ++ like_predicate i ++ and_text rest

/-- The `WHERE` clause for the filtered fields `fields`: nothing when there is
none, else one `WHERE`, then one predicate per field, joined by `AND`. -/
def where_text : List Nat → String
  | [] => ""
  | i :: rest => "WHERE " ++ like_predicate i ++ and_text rest

/-- The `ORDER BY` clause: present when a sort key was set. -/
def order_text (query : library_query) : String :=
  if query.order.length > 0 then " ORDER BY " ++ query.order else ""

/-- The `LIMIT`/`OFFSET` clause: present when `limit_clause` says so. -/
def limit_text (query : library_query) : String :=
  match limit_clause query with
  | some (l, o) => " LIMIT " ++ toString l ++ " OFFSET " ++ toString o
  | none => ""

/-- Values numbered `n, n + 1, ...`: placeholder index and bound value. -/
def numbered : Nat → List String → List (Nat × String)
  | _, [] => []
  | n, v :: vs => (n, v) :: numbered (n + 1) vs

/-- The stored patterns of the set filters, in field-enumeration order. -/
def set_patterns (query : library_query) : List String :=
  (set_fields query).filterMap query.filters

/-- A sequence of `library_query_sort` calls, first to last. -/
def sort_calls (query : library_query) (keys : List (Nat × Bool)) : library_query :=
  keys.foldl (fun q k => library_query_sort q k.1 k.2) query

/-- A filter value without the two `LIKE` wildcards. -/
def wildcard_free (v : String) : Prop := ∀ c ∈ v.data, c ≠ '%' ∧ c ≠ '_'

instance (v : String) : Decidable (wildcard_free v) := by
  unfold wildcard_free; infer_instance

/-- Start a query and read all its rows. -/
def run_query (order_by : String → List result_row → List result_row)
    (table : List result_row) (prepare_ok : String → Bool) (query : library_query) :
    List result_row :=
  query_rows order_by table (library_query_start prepare_ok query).2

/-! ## Sort keys and the sort string written from them -/

/-- The sort key a token asks for: its field, and descending when the token
starts with `-`. -/
def token_key (t : List Char) : Nat × Bool :=
  (token_field t, decide (t.head? = some '-'))

/-- The token of a sort key: the name of the field, with `-` in front when the
key is descending. -/
def key_token (k : Nat × Bool) : List Char :=
  (if k.2 then ['-'] else []) ++ (field_names.getD k.1 "").data

/-- Tokens joined by `,`. -/
def join_commas : List (List Char) → List Char
  | [] => []
  | [t] => t
  | t :: u :: ts => t ++ ',' :: join_commas (u :: ts)

/-- The sort string of a list of keys: their tokens joined by `,`. -/
def sort_string (keys : List (Nat × Bool)) : String :=
  String.mk (join_commas (keys.map key_token))

/-- One key of the `ORDER BY` list: the column, the collation, the direction. -/
def key_text (k : Nat × Bool) : String :=
  field_maps.getD k.1 "" ++ " COLLATE NOCASE " ++ (if k.2 then "DESC" else "ASC")

/-- Key texts joined by `", "`. -/
def join_keys : List String → String
  | [] => ""
  | [t] => t
  | t :: u :: ts => t ++ ", " ++ join_keys (u :: ts)

/-- Key texts each preceded by `", "`: what further keys add to an order that
is not empty. -/
def more_keys : List String → String
  | [] => ""
  | t :: ts => ", " ++ t ++ more_keys ts

/-- The ten field names of the enumeration, `trackid` to `duration`. -/
def named_fields : List String :=
  ["trackid", "url", "track", "title", "artistid", "artist", "albumid", "album", "start",
   "duration"]

/-! # Theorems -/

/-! ## Sort-string parsing -/

theorem takeWhile_comma_ne (c : Char) (cs : List Char) (h : c ≠ ',') :
    (c :: cs).takeWhile (fun x => x != ',') = c :: cs.takeWhile (fun x => x != ',') := by
  simp [List.takeWhile_cons, h]

theorem takeWhile_comma_eq (cs : List Char) :
    (',' :: cs).takeWhile (fun x => x != ',') = [] := by
  simp [List.takeWhile_cons]

theorem dropWhile_comma_ne (c : Char) (cs : List Char) (h : c ≠ ',') :
    (c :: cs).dropWhile (fun x => x != ',') = cs.dropWhile (fun x => x != ',') := by
  simp [List.dropWhile_cons, h]

theorem dropWhile_comma_eq (cs : List Char) :
    (',' :: cs).dropWhile (fun x => x != ',') = ',' :: cs := by
  simp [List.dropWhile_cons]

theorem dropWhile_comma_cases (l : List Char) :
    l.dropWhile (fun x => x != ',') = [] ∨
      ∃ r, l.dropWhile (fun x => x != ',') = ',' :: r := by
  induction l with
  | nil => left; rfl
  | cons a l ih =>
    by_cases h : a = ','
    · subst h; right; exact ⟨l, dropWhile_comma_eq l⟩
    · rw [dropWhile_comma_ne a l h]; exact ih

theorem sort_tokens_cons (c : Char) (cs : List Char) :
    sort_tokens (c :: cs) =
      (c :: cs).takeWhile (fun x => x != ',') ::
        (match (c :: cs).dropWhile (fun x => x != ',') with
         | ',' :: r => sort_tokens r
         | _ => []) := by
  induction cs generalizing c with
  | nil =>
    by_cases h : c = ','
    · subst h; rw [takeWhile_comma_eq, dropWhile_comma_eq]; rfl
    · rw [takeWhile_comma_ne c _ h, dropWhile_comma_ne c _ h]
      simp [sort_tokens, h]
  | cons d ds ih =>
    by_cases h : c = ','
    · subst h; rw [takeWhile_comma_eq, dropWhile_comma_eq]; rfl
    · have e1 : sort_tokens (c :: d :: ds) =
          (match sort_tokens (d :: ds) with
           | [] => [[c]]
           | t :: ts => (c :: t) :: ts) := by
        simp [sort_tokens, h]
      rw [e1, ih d, takeWhile_comma_ne c _ h, dropWhile_comma_ne c _ h]

theorem dropWhile_comma_length (l : List Char) :
    (l.dropWhile (fun x => x != ',')).length ≤ l.length := by
  induction l with
  | nil => simp
  | cons a l ih =>
    by_cases h : a = ','
    · subst h; rw [dropWhile_comma_eq]
    · rw [dropWhile_comma_ne a l h, List.length_cons]; omega

/-- The loop of `library_query_sort_from_string` never runs out of fuel once the
fuel exceeds the length of the text, and then it does what `sort_tokens_run`
does on the tokens of the text. -/
theorem sort_from_string_loop_eq (fuel : Nat) (query : library_query) (sort : List Char)
    (h : sort.length < fuel) :
    sort_from_string_loop fuel query sort = some (sort_tokens_run query (sort_tokens sort)) := by
  induction fuel generalizing query sort with
  | zero => omega
  | succ fuel ih =>
    cases sort with
    | nil => rfl
    | cons c cs =>
      rw [sort_tokens_cons]
      simp only [List.length_cons] at h
      by_cases hc : c = '-'
      · subst hc
        have hne : ('-' : Char) ≠ ',' := by decide
        rw [takeWhile_comma_ne _ _ hne, dropWhile_comma_ne _ _ hne]
        have ht : token_field ('-' :: cs.takeWhile (fun x => x != ',')) =
            library_field_from_string (String.mk (cs.takeWhile (fun x => x != ','))) := by
          simp [token_field, strip_dash]
        have hlen := dropWhile_comma_length cs
        simp only [sort_from_string_loop, sort_tokens_run, ht, if_true]
        split
        · rfl
        · rcases dropWhile_comma_cases cs with he | ⟨r, he⟩
          · have hs : skip_comma [] = [] := rfl
            rw [he, hs, ih _ _ (by simp; omega)]
            simp [sort_tokens]
          · rw [he] at hlen ⊢
            simp only [List.length_cons] at hlen
            have hs : skip_comma (',' :: r) = r := rfl
            rw [hs, ih _ _ (by omega)]
            simp
      · have ht : token_field ((c :: cs).takeWhile (fun x => x != ',')) =
            library_field_from_string (String.mk ((c :: cs).takeWhile (fun x => x != ','))) := by
          by_cases h2 : c = ','
          · subst h2; rw [takeWhile_comma_eq]; rfl
          · rw [takeWhile_comma_ne c _ h2]; simp [token_field, strip_dash, hc]
        have hh : decide (((c :: cs).takeWhile (fun x => x != ',')).head? = some '-') = false := by
          by_cases h2 : c = ','
          · subst h2; rw [takeWhile_comma_eq]; rfl
          · rw [takeWhile_comma_ne c _ h2]; simp [hc]
        have hlen := dropWhile_comma_length (c :: cs)
        simp only [sort_from_string_loop, sort_tokens_run, ht, hc, if_false, hh, decide_False]
        split
        · rfl
        · rcases dropWhile_comma_cases (c :: cs) with he | ⟨r, he⟩
          · have hs : skip_comma [] = [] := rfl
            rw [he, hs, ih _ _ (by simp; omega)]
            simp [sort_tokens]
          · rw [he] at hlen ⊢
            simp only [List.length_cons] at hlen
            have hs : skip_comma (',' :: r) = r := rfl
            rw [hs, ih _ _ (by omega)]
            simp

/-- `library_query_sort_from_string` always returns: it is `sort_tokens_run` on the
tokens of the string. -/
theorem library_query_sort_from_string_eq (query : library_query) (sort : String) :
    library_query_sort_from_string query sort =
      some (sort_tokens_run query (sort_tokens sort.data)) :=
  sort_from_string_loop_eq _ _ _ (Nat.lt_succ_self _)

theorem sort_tokens_run_bad (query : library_query) (ts : List (List Char))
    (h : ∃ t ∈ ts, token_field t = LIBRARY_FIELD_NONE) :
    (sort_tokens_run query ts).1 = -1 := by
  induction ts generalizing query with
  | nil => simp at h
  | cons t ts ih =>
    simp only [sort_tokens_run]
    split
    · rfl
    · rename_i hne
      apply ih
      obtain ⟨u, hu, hbad⟩ := h
      rcases List.mem_cons.1 hu with rfl | hu
      · exact absurd hbad hne
      · exact ⟨u, hu, hbad⟩

/-- C1, as stated, fails: `"title,bogus"` has the unknown token `bogus`, the call
returns `-1`, and the key of `title` has been appended to the order of a fresh
query. -/
theorem sort_from_string_partial_order_counterexample :
    "bogus".data ∈ sort_tokens "title,bogus".data ∧
    token_field "bogus".data = LIBRARY_FIELD_NONE ∧
    (library_query_sort_from_string library_query_new "title,bogus").map
        (fun r => (r.1, r.2.order)) = some (-1, "tracks.title COLLATE NOCASE ASC") ∧
    "tracks.title COLLATE NOCASE ASC" ≠ library_query_new.order := by
  decide

/-- C1, amended: when some token of the sort string names no field,
`library_query_sort_from_string` returns `-1`; when that token is the first
one, the query is left exactly as it was before the call. -/
theorem sort_from_string_unknown_token (query : library_query) (sort : String)
    (h : ∃ t ∈ sort_tokens sort.data, token_field t = LIBRARY_FIELD_NONE) :
    (∃ q, library_query_sort_from_string query sort = some (-1, q)) ∧
    ((sort_tokens sort.data).head?.map token_field = some LIBRARY_FIELD_NONE →
      library_query_sort_from_string query sort = some (-1, query)) := by
  rw [library_query_sort_from_string_eq]
  constructor
  · refine ⟨(sort_tokens_run query (sort_tokens sort.data)).2, ?_⟩
    have h1 := sort_tokens_run_bad query _ h
    rw [← h1]
  · intro hh
    cases hts : sort_tokens sort.data with
    | nil => rw [hts] at hh; simp at hh
    | cons t ts =>
      rw [hts] at hh
      have ht : token_field t = LIBRARY_FIELD_NONE := by simpa using hh
      simp [sort_tokens_run, ht]

/-- C1, witness: `"bogusfield"` on a fresh query returns `-1` and leaves the fresh
query, whose order is empty. -/
theorem sort_from_string_unknown_token_witness :
    library_query_sort_from_string library_query_new "bogusfield"
        = some (-1, library_query_new) ∧ library_query_new.order = "" :=
  ⟨(sort_from_string_unknown_token library_query_new "bogusfield"
      ⟨"bogusfield".data, by decide, by decide⟩).2 (by decide), rfl⟩

/-! ## Compilation of the statement -/

theorem where_step_foldl (query : library_query) (l : List Nat) (sql : String) (join : Bool) :
    l.foldl (where_step query) (sql, join) =
      (sql ++ (if join then and_text (l.filter (fun i => (query.filters i).isSome))
               else where_text (l.filter (fun i => (query.filters i).isSome))),
       join || !(l.filter (fun i => (query.filters i).isSome)).isEmpty) := by
  induction l generalizing sql join with
  | nil => cases join <;> simp [and_text, where_text]
  | cons i l ih =>
    rw [List.foldl_cons]
    cases hf : query.filters i with
    | none => simp [where_step, hf, ih]
    | some f =>
      cases join <;>
        simp [where_step, hf, ih, and_text, where_text, like_predicate, String.append_assoc]

theorem bind_step_foldl (query : library_query) (l : List Nat)
    (acc : List (Nat × String)) (n : Nat) :
    l.foldl (bind_step query) (acc, n) =
      (acc ++ numbered n ((l.filter (fun i => (query.filters i).isSome)).filterMap query.filters),
       n + (l.filter (fun i => (query.filters i).isSome)).length) := by
  induction l generalizing acc n with
  | nil => simp [numbered]
  | cons i l ih =>
    rw [List.foldl_cons]
    cases hf : query.filters i with
    | none => simp [bind_step, hf, ih]
    | some f =>
      simp [bind_step, hf, ih, numbered, Nat.add_assoc, Nat.add_comm 1]

theorem library_query_sql_eq (query : library_query) :
    library_query_sql query =
      select_head ++ where_text (set_fields query) ++ order_text query ++ limit_text query := by
  unfold library_query_sql order_text limit_text set_fields
  rw [where_step_foldl]
  by_cases ho : query.order.length > 0 <;> cases limit_clause query <;>
    simp [ho, String.append_assoc]

theorem library_query_binds_eq (query : library_query) :
    library_query_binds query = numbered 1 (set_patterns query) := by
  unfold library_query_binds set_patterns set_fields
  rw [bind_step_foldl]
  simp

theorem numbered_length (n : Nat) (vs : List String) : (numbered n vs).length = vs.length := by
  induction vs generalizing n with
  | nil => rfl
  | cons v vs ih => simp [numbered, ih]

theorem set_patterns_map (query : library_query) :
    (set_patterns query).map some = (set_fields query).map query.filters := by
  unfold set_patterns
  have key : ∀ l : List Nat, (∀ i ∈ l, (query.filters i).isSome = true) →
      (l.filterMap query.filters).map some = l.map query.filters := by
    intro l
    induction l with
    | nil => intro _; rfl
    | cons i l ih =>
      intro h
      have hi := h i (List.mem_cons_self _ _)
      obtain ⟨f, hf⟩ := Option.isSome_iff_exists.1 hi
      have ih2 := ih (fun j hj => h j (List.mem_cons_of_mem _ hj))
      simp [List.filterMap_cons, hf, ih2]
  apply key
  intro i hi
  unfold set_fields at hi
  exact (List.mem_filter.1 hi).2

theorem set_fields_mem (query : library_query) (i : Nat) :
    i ∈ set_fields query ↔
      1 ≤ i ∧ i ≤ LIBRARY_FIELD_ALL ∧ (query.filters i).isSome = true := by
  unfold set_fields field_indices
  rw [List.mem_filter, List.mem_range'_1]
  constructor
  · rintro ⟨⟨h1, h2⟩, h3⟩; exact ⟨h1, by omega, h3⟩
  · rintro ⟨h1, h2, h3⟩; exact ⟨⟨h1, by omega⟩, h3⟩

theorem set_fields_increasing (query : library_query) :
    (set_fields query).Pairwise (fun i j => i < j) := by
  unfold set_fields field_indices
  exact List.Pairwise.sublist (List.filter_sublist _) (List.pairwise_lt_range' 1 _)

theorem field_maps_no_placeholder (i : Nat) :
    (field_maps.getD i "").data.count '?' = 0 := by
  by_cases h : i < 12
  · interval_cases i <;> decide
  · rw [List.getD_eq_default _ _ (by simpa [field_maps] using h)]
    rfl

theorem like_predicate_placeholder (i : Nat) : (like_predicate i).data.count '?' = 1 := by
  unfold like_predicate
  rw [String.data_append, List.count_append, field_maps_no_placeholder]
  decide

theorem and_text_placeholders (l : List Nat) : (and_text l).data.count '?' = l.length := by
  induction l with
  | nil => rfl
  | cons i l ih =>
    have h0 : (" AND " : String).data.count '?' = 0 := by decide
    simp only [and_text, String.data_append, List.count_append, like_predicate_placeholder, ih,
      List.length_cons, h0]
    omega

theorem where_text_placeholders (l : List Nat) : (where_text l).data.count '?' = l.length := by
  cases l with
  | nil => rfl
  | cons i l =>
    have h0 : ("WHERE " : String).data.count '?' = 0 := by decide
    simp only [where_text, String.data_append, List.count_append, like_predicate_placeholder,
      and_text_placeholders, List.length_cons, h0]
    omega

/-- C2: when the engine accepts the text, `library_query_start` returns `0` with a
statement whose text is the fixed head, then the `WHERE` clause over the set
fields (one `column LIKE ?` each, joined by `AND` after one `WHERE`, nothing
when no filter is set), then the `ORDER BY` and `LIMIT` clauses; the set fields
are exactly the indices `1 .. LIBRARY_FIELD_ALL` with a filter, in increasing
order; placeholder `k` is bound to the stored pattern of the `k`-th set field;
and the `WHERE` clause has as many `?` as there are bindings. -/
theorem library_query_start_statement (prepare_ok : String → Bool) (query : library_query)
    (h : prepare_ok (library_query_sql query) = true) :
    ∃ st, library_query_start prepare_ok query = (0, { query with stmt := some st }) ∧
      st.sql = select_head ++ where_text (set_fields query) ++ order_text query
        ++ limit_text query ∧
      st.params = numbered 1 (set_patterns query) ∧
      (set_patterns query).map some = (set_fields query).map query.filters ∧
      (∀ i, i ∈ set_fields query ↔
        1 ≤ i ∧ i ≤ LIBRARY_FIELD_ALL ∧ (query.filters i).isSome = true) ∧
      (set_fields query).Pairwise (fun i j => i < j) ∧
      (where_text (set_fields query)).data.count '?' = st.params.length := by
  refine ⟨{ sql := library_query_sql query, params := library_query_binds query }, ?_,
    library_query_sql_eq query, library_query_binds_eq query, set_patterns_map query,
    set_fields_mem query, set_fields_increasing query, ?_⟩
  · simp [library_query_start, h]
  · rw [where_text_placeholders]
    show _ = (library_query_binds query).length
    rw [library_query_binds_eq, numbered_length, ← List.length_map (set_patterns query) some,
      set_patterns_map, List.length_map]

/-- C2, witness: filters on artist and title, a sort on title and a limit of 5. -/
theorem library_query_start_statement_witness :
    ∃ (q : library_query) (st : statement), library_query_start (fun _ => true)
        (library_query_limit (library_query_sort (library_query_filter
          (library_query_filter library_query_new LIBRARY_FIELD_ARTIST (some "abc"))
          LIBRARY_FIELD_TITLE (some "xyz")) LIBRARY_FIELD_TITLE false) 5) = (0, q) ∧
      q.stmt = some st ∧
      st.sql = select_head ++ "WHERE tracks.title LIKE ? AND artists.name LIKE ?"
        ++ " ORDER BY tracks.title COLLATE NOCASE ASC" ++ " LIMIT 5 OFFSET 0" ∧
      st.params = [(1, "%xyz%"), (2, "%abc%")] := by
  obtain ⟨st, h1, h2, h3, _⟩ := library_query_start_statement (fun _ => true)
    (library_query_limit (library_query_sort (library_query_filter
      (library_query_filter library_query_new LIBRARY_FIELD_ARTIST (some "abc"))
      LIBRARY_FIELD_TITLE (some "xyz")) LIBRARY_FIELD_TITLE false) 5) rfl
  refine ⟨_, st, h1, rfl, ?_, ?_⟩
  · rw [h2]; decide
  · rw [h3]; decide

/-! ## Filters and `LIKE` -/

theorem like_any_of (m : List Char → Bool) (t : List Char) (h : m t = true) :
    like_any m t = true := by
  cases t with
  | nil => exact h
  | cons c t => simp [like_any, h]

theorem like_any_infix (m : List Char → Bool) (l : List Char)
    (hm : ∀ s, m s = true ↔ l <+: s.map Char.toLower) (t : List Char) :
    like_any m t = true ↔ l <:+: t.map Char.toLower := by
  induction t with
  | nil =>
    simp only [like_any, hm, List.map_nil, List.prefix_nil, List.infix_nil]
  | cons c t ih =>
    simp only [like_any, Bool.or_eq_true, hm, ih, List.map_cons, List.infix_cons_iff]

theorem like_any_of_infix (m : List Char → Bool) (l : List Char)
    (hm : ∀ s, l <+: s.map Char.toLower → m s = true) (t : List Char)
    (h : l <:+: t.map Char.toLower) : like_any m t = true := by
  induction t with
  | nil =>
    simp only [List.map_nil, List.infix_nil] at h
    exact hm [] (by simp [h])
  | cons c t ih =>
    simp only [List.map_cons, List.infix_cons_iff] at h
    rcases h with h | h
    · simp [like_any, hm (c :: t) (by simpa using h)]
    · simp [like_any, ih h]

theorem like_any_end (t : List Char) : like_any (like_compare []) t = true := by
  induction t with
  | nil => rfl
  | cons c t ih => simp [like_any, ih]

theorem like_compare_head_iff (v : List Char) (hv : ∀ c ∈ v, c ≠ '%' ∧ c ≠ '_')
    (t : List Char) :
    like_compare (v ++ ['%']) t = true ↔ v.map Char.toLower <+: t.map Char.toLower := by
  induction v generalizing t with
  | nil =>
    have : like_compare ([] ++ ['%']) t = like_any (like_compare []) t := rfl
    rw [this]
    simp only [List.map_nil, List.nil_prefix, iff_true]
    exact like_any_end t
  | cons a v ih =>
    have ha := hv a (List.mem_cons_self _ _)
    have ih2 := ih (fun c hc => hv c (List.mem_cons_of_mem _ hc))
    cases t with
    | nil => simp [like_compare, ha.1, ha.2]
    | cons c t =>
      simp [like_compare, ha.1, ha.2, ih2, List.cons_prefix_cons]

theorem like_compare_head_of (v : List Char) (t : List Char)
    (h : v.map Char.toLower <+: t.map Char.toLower) : like_compare (v ++ ['%']) t = true := by
  induction v generalizing t with
  | nil =>
    have : like_compare ([] ++ ['%']) t = like_any (like_compare []) t := rfl
    rw [this]
    exact like_any_end t
  | cons a v ih =>
    cases t with
    | nil => simp at h
    | cons c t =>
      simp only [List.map_cons, List.cons_prefix_cons] at h
      have ih2 := ih t h.2
      by_cases h1 : a = '%'
      · have : like_compare (a :: v ++ ['%']) (c :: t) =
            like_any (like_compare (v ++ ['%'])) (c :: t) := by simp [like_compare, h1]
        rw [this]
        simp [like_any, like_any_of _ _ ih2]
      · by_cases h2 : a = '_'
        · simp [like_compare, h2, ih2]
        · simp [like_compare, h1, h2, ih2, h.1]

theorem wrapped_data (v : String) : ("%" ++ v ++ "%").data = '%' :: (v.data ++ ['%']) := by
  simp [String.data_append]

/-- The pattern comparison alone: a value that occurs in the text, ASCII letters
folded, matches as `%value%`. -/
theorem like_compare_of_contains (v text : String) (h : contains_ascii_nocase text v) :
    like_compare ("%" ++ v ++ "%").data text.data = true := by
  rw [wrapped_data]
  have : like_compare ('%' :: (v.data ++ ['%'])) text.data =
      like_any (like_compare (v.data ++ ['%'])) text.data := by simp [like_compare]
  rw [this]
  exact like_any_of_infix _ _ (fun s hs => like_compare_head_of _ _ hs) _ h

/-- The pattern comparison alone: for a value without wildcards, `%value%`
matches exactly the texts that contain the value, ASCII letters folded. -/
theorem like_compare_iff_contains (v text : String) (hv : wildcard_free v) :
    like_compare ("%" ++ v ++ "%").data text.data = true ↔ contains_ascii_nocase text v := by
  rw [wrapped_data]
  have : like_compare ('%' :: (v.data ++ ['%'])) text.data =
      like_any (like_compare (v.data ++ ['%'])) text.data := by simp [like_compare]
  rw [this]
  exact like_any_infix _ _ (fun s => like_compare_head_iff _ hv s) _

/-- A pattern over the engine's bound matches nothing. -/
theorem sql_like_over_limit (pattern text : String)
    (h : like_pattern_limit < pattern.utf8ByteSize) : sql_like pattern text = false := by
  unfold sql_like
  have hd : decide (pattern.utf8ByteSize ≤ like_pattern_limit) = false :=
    decide_eq_false (by omega)
  rw [hd, Bool.false_and]

/-- Within the engine's bound on the pattern, a value that occurs in the text,
ASCII letters folded, matches as `%value%`. -/
theorem sql_like_of_contains (v text : String)
    (hlen : ("%" ++ v ++ "%").utf8ByteSize ≤ like_pattern_limit)
    (h : contains_ascii_nocase text v) : sql_like ("%" ++ v ++ "%") text = true := by
  unfold sql_like
  rw [like_compare_of_contains v text h, decide_eq_true hlen]
  rfl

/-- For a value without wildcards, `%value%` matches a text exactly when the
pattern is within the engine's bound and the text contains the value, ASCII
letters folded. -/
theorem sql_like_iff_contains (v text : String) (hv : wildcard_free v) :
    sql_like ("%" ++ v ++ "%") text = true ↔
      ("%" ++ v ++ "%").utf8ByteSize ≤ like_pattern_limit ∧ contains_ascii_nocase text v := by
  unfold sql_like
  rw [Bool.and_eq_true, decide_eq_true_eq, like_compare_iff_contains v text hv]

theorem utf8Len_replicate_a (n : Nat) : String.utf8Len (List.replicate n 'a') = n := by
  induction n with
  | zero => rfl
  | succ n ih =>
    rw [List.replicate_succ, String.utf8Len_cons, ih]
    rfl

theorem wrapped_size_replicate_a (n : Nat) :
    ("%" ++ String.mk (List.replicate n 'a') ++ "%").utf8ByteSize = n + 2 := by
  have h : ∀ s : String, s.utf8ByteSize = String.utf8Len s.data := fun s => rfl
  rw [h, wrapped_data, String.utf8Len_cons, String.utf8Len_append, utf8Len_replicate_a]
  rfl

theorem param_value_numbered (k : Nat) (vs : List String) (n : Nat) (acc : Option String) :
    (numbered n vs).foldl (fun acc b => if b.1 = k then some b.2 else acc) acc =
      match (if n ≤ k then vs[k - n]? else none) with
      | some v => some v
      | none => acc := by
  induction vs generalizing n acc with
  | nil => simp [numbered]
  | cons v vs ih =>
    simp only [numbered, List.foldl_cons, ih]
    by_cases h1 : n = k
    · subst h1; simp
    · by_cases h2 : n + 1 ≤ k
      · have h3 : n ≤ k := by omega
        have h4 : k - n = (k - (n + 1)) + 1 := by omega
        simp [h1, h2, h3, h4]
      · have h3 : ¬ n ≤ k := by omega
        simp [h1, h2, h3]

theorem where_holds_iff (params : List (Nat × String)) (filters : Nat → Option String)
    (r : result_row) (S : List Nat) (vs : List String) (n : Nat)
    (hvs : vs.map some = S.map filters)
    (hp : ∀ j, param_value params (n + j) = vs[j]?) :
    where_holds params n S r = true ↔
      ∀ i ∈ S, ∃ p t, filters i = some p ∧ field_text i r = some t ∧
        sql_like p t = true := by
  induction S generalizing vs n with
  | nil => simp [where_holds]
  | cons i S ih =>
    cases vs with
    | nil => simp at hvs
    | cons v vs =>
      simp only [List.map_cons, List.cons.injEq] at hvs
      have h0 : param_value params n = some v := by simpa using hp 0
      have ih2 := ih vs (n + 1) hvs.2 (fun j => by
        have := hp (j + 1)
        simpa [Nat.add_assoc, Nat.add_comm 1 j] using this)
      simp only [where_holds, h0, Bool.and_eq_true, ih2, List.forall_mem_cons, ← hvs.1]
      constructor
      · rintro ⟨h1, h2⟩
        refine ⟨?_, h2⟩
        cases ht : field_text i r with
        | none => simp [ht] at h1
        | some t => exact ⟨v, t, rfl, rfl, by simpa [ht] using h1⟩
      · rintro ⟨⟨p, t, h1, h2, h3⟩, h4⟩
        refine ⟨?_, h4⟩
        cases h1
        simp [h2, h3]

/-- The `WHERE` clause of a started query holds on a row exactly when every set
filter's stored pattern matches the row's text for that field. -/
theorem where_holds_started (query : library_query) (r : result_row) :
    where_holds (library_query_binds query) 1 (set_fields query) r = true ↔
      ∀ i ∈ set_fields query, ∃ p t, query.filters i = some p ∧ field_text i r = some t ∧
        sql_like p t = true := by
  apply where_holds_iff _ _ _ _ (set_patterns query) 1 (set_patterns_map query)
  intro j
  rw [library_query_binds_eq]
  unfold param_value
  rw [param_value_numbered]
  simp
  cases (set_patterns query)[j]? <;> rfl

theorem mem_sql_limit (l o : Int) (rows : List result_row) (r : result_row)
    (h : r ∈ sql_limit l o rows) : r ∈ rows := by
  unfold sql_limit at h
  dsimp only at h
  split at h
  · exact List.mem_of_mem_drop h
  · exact List.mem_of_mem_drop (List.mem_of_mem_take h)

/-- Every row a started query yields passes every set filter: the stored pattern
of the filter matches the row's text for that field. -/
theorem query_rows_pass (order_by : String → List result_row → List result_row)
    (horder : ∀ o l r, r ∈ order_by o l → r ∈ l)
    (prepare_ok : String → Bool) (table : List result_row) (query : library_query)
    (r : result_row)
    (hr : r ∈ query_rows order_by table (library_query_start prepare_ok query).2)
    (i : Nat) (hi : i ∈ set_fields query) :
    ∃ p t, query.filters i = some p ∧ field_text i r = some t ∧
      sql_like p t = true := by
  unfold library_query_start at hr
  dsimp only at hr
  by_cases hp : prepare_ok (library_query_sql query) = true
  · rw [if_pos hp] at hr
    unfold query_rows at hr
    dsimp only at hr
    have hmem : r ∈ table.filter
        (where_holds (library_query_binds query) 1 (set_fields query)) := by
      split at hr
      · exact horder _ _ _ (mem_sql_limit _ _ _ _ hr)
      · exact horder _ _ _ hr
    have hw := (List.mem_filter.1 hmem).2
    exact (where_holds_started query r).1 hw i hi
  · rw [if_neg hp] at hr
    simp [query_rows] at hr

/-- C3, as stated, fails in three ways.  The filter value `_` is stored as the
pattern `%_%`, which matches the artist `Band` although `Band` does not contain
`_`, and the started query returns that track.  The value `été` does not match
the artist `ÉTÉ`, which contains it case-insensitively, because the engine
folds only ASCII letters, and the started query returns nothing.  And a value
of 50000 letters does not match the text that is that very value, because the
wrapped pattern is over the engine's bound of 50000 bytes. -/
theorem filter_not_substring_counterexample :
    ((library_query_filter library_query_new LIBRARY_FIELD_ARTIST (some "_")).filters
        LIBRARY_FIELD_ARTIST = some "%_%" ∧
      sql_like "%_%" "Band" = true ∧
      ¬ contains_nocase_latin1 "Band" "_" ∧ ¬ contains_ascii_nocase "Band" "_" ∧
      query_rows (fun _ l => l)
          [{ trackid := 1, url := some "/music/a.flac", track := 1, title := some "Song",
             artistid := 1, artist := some "Band", albumid := 1, album := some "LP",
             start := 0, duration := 180 }]
          (library_query_start (fun _ => true)
            (library_query_filter library_query_new LIBRARY_FIELD_ARTIST (some "_"))).2
        = [{ trackid := 1, url := some "/music/a.flac", track := 1, title := some "Song",
             artistid := 1, artist := some "Band", albumid := 1, album := some "LP",
             start := 0, duration := 180 }]) ∧
    (contains_nocase_latin1 "ÉTÉ" "été" ∧ sql_like "%été%" "ÉTÉ" = false ∧
      query_rows (fun _ l => l)
          [{ trackid := 1, url := some "/music/a.flac", track := 1, title := some "Song",
             artistid := 1, artist := some "ÉTÉ", albumid := 1, album := some "LP",
             start := 0, duration := 180 }]
          (library_query_start (fun _ => true)
            (library_query_filter library_query_new LIBRARY_FIELD_ARTIST (some "été"))).2
        = []) ∧
    (contains_nocase_latin1 long_value long_value ∧
      contains_ascii_nocase long_value long_value ∧
      sql_like ("%" ++ long_value ++ "%") long_value = false) := by
  refine ⟨by decide, by decide, ?_, ?_, ?_⟩
  · exact List.infix_refl _
  · exact List.infix_refl _
  · apply sql_like_over_limit
    unfold long_value
    rw [wrapped_size_replicate_a]
    decide

/-- C3, amended: `library_query_filter` stores every value wrapped in `%`.  Under
the engine's `LIKE` (wildcards `%` and `_`, only ASCII letters folded, patterns
of at most 50000 bytes) a text that contains the value, ASCII letters folded,
matches the stored pattern whenever the pattern is within the bound, and no
text matches a pattern over the bound; for a value with neither `%` nor `_` the
pattern matches a text if and only if the pattern is within the bound and the
text contains the value, ASCII letters folded; hence with filters `a` on artist and `t` on title, both without
wildcards, every row the started query yields has an artist name containing
`a` and a title containing `t`, ASCII letters folded. -/
theorem filter_is_substring_match (query : library_query) (field : Nat) (v a t text : String)
    (order_by : String → List result_row → List result_row)
    (prepare_ok : String → Bool) (table : List result_row)
    (horder : ∀ o l r, r ∈ order_by o l → r ∈ l)
    (ha : wildcard_free a) (ht : wildcard_free t) :
    (library_query_filter query field (some v)).filters field = some ("%" ++ v ++ "%") ∧
    (("%" ++ v ++ "%").utf8ByteSize ≤ like_pattern_limit → contains_ascii_nocase text v →
      sql_like ("%" ++ v ++ "%") text = true) ∧
    (wildcard_free v →
      (sql_like ("%" ++ v ++ "%") text = true ↔
        ("%" ++ v ++ "%").utf8ByteSize ≤ like_pattern_limit ∧
          contains_ascii_nocase text v)) ∧
    (∀ r ∈ query_rows order_by table (library_query_start prepare_ok
        (library_query_filter (library_query_filter query LIBRARY_FIELD_ARTIST (some a))
          LIBRARY_FIELD_TITLE (some t))).2,
      ∃ name title, r.artist = some name ∧ contains_ascii_nocase name a ∧
        r.title = some title ∧ contains_ascii_nocase title t) ∧
    (like_pattern_limit < ("%" ++ v ++ "%").utf8ByteSize →
      sql_like ("%" ++ v ++ "%") text = false) := by
  refine ⟨by simp [library_query_filter], sql_like_of_contains v text,
    sql_like_iff_contains v text, ?_, sql_like_over_limit _ text⟩
  intro r hr
  have hfa : (library_query_filter (library_query_filter query LIBRARY_FIELD_ARTIST (some a))
      LIBRARY_FIELD_TITLE (some t)).filters 6 = some ("%" ++ a ++ "%") := by
    simp [library_query_filter, LIBRARY_FIELD_ARTIST, LIBRARY_FIELD_TITLE, Function.update]
  have hft : (library_query_filter (library_query_filter query LIBRARY_FIELD_ARTIST (some a))
      LIBRARY_FIELD_TITLE (some t)).filters 4 = some ("%" ++ t ++ "%") := by
    simp [library_query_filter, LIBRARY_FIELD_ARTIST, LIBRARY_FIELD_TITLE, Function.update]
  obtain ⟨p1, t1, h1, h2, h3⟩ := query_rows_pass order_by horder prepare_ok table _ r hr 6
    ((set_fields_mem _ 6).2 ⟨by decide, by decide, by rw [hfa]; rfl⟩)
  obtain ⟨p2, t2, h4, h5, h6⟩ := query_rows_pass order_by horder prepare_ok table _ r hr 4
    ((set_fields_mem _ 4).2 ⟨by decide, by decide, by rw [hft]; rfl⟩)
  rw [hfa] at h1
  rw [hft] at h4
  cases h1
  cases h4
  exact ⟨t1, t2, h2, ((sql_like_iff_contains a t1 ha).1 h3).2, h5,
    ((sql_like_iff_contains t t2 ht).1 h6).2⟩

/-- C3, witness: filters `an` on artist and `ONG` on title over a table of two
tracks in the engine's table order; the track of `Band` with the title `Song`
is the one row yielded. -/
theorem filter_is_substring_match_witness :
    wildcard_free "an" ∧ wildcard_free "ONG" ∧
    (query_rows (fun _ l => l)
        [{ trackid := 1, url := some "/music/a.flac", track := 1, title := some "Song",
           artistid := 1, artist := some "Band", albumid := 1, album := some "LP",
           start := 0, duration := 180 },
         { trackid := 2, url := some "/music/b.flac", track := 2, title := some "Tune",
           artistid := 2, artist := none, albumid := 1, album := some "LP",
           start := 0, duration := 200 }]
        (library_query_start (fun _ => true)
          (library_query_filter (library_query_filter library_query_new
            LIBRARY_FIELD_ARTIST (some "an")) LIBRARY_FIELD_TITLE (some "ONG"))).2).length = 1 ∧
    (sql_like "%an%" "Band" = true ↔
      ("%an%" : String).utf8ByteSize ≤ like_pattern_limit ∧ contains_ascii_nocase "Band" "an") ∧
    ∀ r ∈ query_rows (fun _ l => l)
        [{ trackid := 1, url := some "/music/a.flac", track := 1, title := some "Song",
           artistid := 1, artist := some "Band", albumid := 1, album := some "LP",
           start := 0, duration := 180 },
         { trackid := 2, url := some "/music/b.flac", track := 2, title := some "Tune",
           artistid := 2, artist := none, albumid := 1, album := some "LP",
           start := 0, duration := 200 }]
        (library_query_start (fun _ => true)
          (library_query_filter (library_query_filter library_query_new
            LIBRARY_FIELD_ARTIST (some "an")) LIBRARY_FIELD_TITLE (some "ONG"))).2,
      ∃ name title, r.artist = some name ∧ contains_ascii_nocase name "an" ∧
        r.title = some title ∧ contains_ascii_nocase title "ONG" :=
  ⟨by decide, by decide, by decide,
    (filter_is_substring_match library_query_new LIBRARY_FIELD_ARTIST "an" "an" "ONG" "Band"
      (fun _ l => l) (fun _ => true) [] (fun _ _ _ h => h)
      (by decide) (by decide)).2.2.1 (by decide),
    (filter_is_substring_match library_query_new LIBRARY_FIELD_ARTIST "an" "an" "ONG" "Band"
      (fun _ l => l) (fun _ => true) _ (fun _ _ _ h => h)
      (by decide) (by decide)).2.2.2.1⟩

/-! ## The text does not depend on filter values -/

theorem sort_calls_fields (q : library_query) (keys : List (Nat × Bool)) :
    (sort_calls q keys).filters = q.filters ∧ (sort_calls q keys).limit = q.limit ∧
      (sort_calls q keys).offset = q.offset := by
  unfold sort_calls
  induction keys generalizing q with
  | nil => exact ⟨rfl, rfl, rfl⟩
  | cons k keys ih =>
    rw [List.foldl_cons]
    obtain ⟨h1, h2, h3⟩ := ih (library_query_sort q k.1 k.2)
    exact ⟨h1, h2, h3⟩

theorem sort_calls_order (q1 q2 : library_query) (keys : List (Nat × Bool))
    (h : q1.order = q2.order) : (sort_calls q1 keys).order = (sort_calls q2 keys).order := by
  unfold sort_calls
  induction keys generalizing q1 q2 with
  | nil => exact h
  | cons k keys ih =>
    rw [List.foldl_cons, List.foldl_cons]
    apply ih
    simp [library_query_sort, h]

theorem library_query_sql_congr (q1 q2 : library_query)
    (hf : ∀ i, 1 ≤ i → i ≤ LIBRARY_FIELD_ALL →
      (q1.filters i).isSome = (q2.filters i).isSome)
    (ho : q1.order = q2.order) (hl : q1.limit = q2.limit) (hoff : q1.offset = q2.offset) :
    library_query_sql q1 = library_query_sql q2 := by
  have hs : set_fields q1 = set_fields q2 := by
    unfold set_fields
    apply List.filter_congr
    intro i hi
    unfold field_indices at hi
    rw [List.mem_range'_1] at hi
    exact hf i hi.1 (by have := hi.2; unfold LIBRARY_FIELD_ALL at *; omega)
  rw [library_query_sql_eq, library_query_sql_eq, hs]
  unfold order_text limit_text limit_clause
  rw [ho, hl, hoff]

/-- C4: two queries with filters set on the same fields, the same order so far
(both fresh, say), the same limit and offset, and then the same sequence of
sort calls compile to the same SQL text whatever the filter values are; the
values appear only in the bindings of the started statement. -/
theorem library_query_sql_ignores_values (q1 q2 : library_query) (keys : List (Nat × Bool))
    (prepare_ok : String → Bool)
    (hf : ∀ i, 1 ≤ i → i ≤ LIBRARY_FIELD_ALL →
      (q1.filters i).isSome = (q2.filters i).isSome)
    (ho : q1.order = q2.order) (hl : q1.limit = q2.limit) (hoff : q1.offset = q2.offset) :
    library_query_sql (sort_calls q1 keys) = library_query_sql (sort_calls q2 keys) ∧
    (∀ st, (library_query_start prepare_ok (sort_calls q1 keys)).2.stmt = some st →
      st.sql = library_query_sql (sort_calls q2 keys) ∧
      st.params = numbered 1 (set_patterns q1)) := by
  obtain ⟨f1, l1, o1⟩ := sort_calls_fields q1 keys
  obtain ⟨f2, l2, o2⟩ := sort_calls_fields q2 keys
  have hsql : library_query_sql (sort_calls q1 keys) = library_query_sql (sort_calls q2 keys) := by
    apply library_query_sql_congr
    · intro i h1 h2; rw [f1, f2]; exact hf i h1 h2
    · exact sort_calls_order q1 q2 keys ho
    · rw [l1, l2, hl]
    · rw [o1, o2, hoff]
  refine ⟨hsql, ?_⟩
  intro st hst
  unfold library_query_start at hst
  dsimp only at hst
  split at hst
  · simp only [Option.some.injEq] at hst
    subst hst
    refine ⟨hsql, ?_⟩
    show library_query_binds (sort_calls q1 keys) = _
    rw [library_query_binds_eq]
    unfold set_patterns set_fields
    rw [f1]
  · simp at hst

/-- C4, witness: an ordinary artist filter and one carrying SQL syntax give the
same text; the second value is found only in the binding. -/
theorem library_query_sql_ignores_values_witness :
    library_query_sql (sort_calls
        (library_query_filter library_query_new LIBRARY_FIELD_ARTIST (some "abc"))
        [(LIBRARY_FIELD_TITLE, false)])
      = library_query_sql (sort_calls
        (library_query_filter library_query_new LIBRARY_FIELD_ARTIST (some "' OR 1=1 --"))
        [(LIBRARY_FIELD_TITLE, false)]) ∧
    library_query_binds (sort_calls
        (library_query_filter library_query_new LIBRARY_FIELD_ARTIST (some "' OR 1=1 --"))
        [(LIBRARY_FIELD_TITLE, false)]) = [(1, "%' OR 1=1 --%")] :=
  ⟨(library_query_sql_ignores_values
      (library_query_filter library_query_new LIBRARY_FIELD_ARTIST (some "abc"))
      (library_query_filter library_query_new LIBRARY_FIELD_ARTIST (some "' OR 1=1 --"))
      [(LIBRARY_FIELD_TITLE, false)] (fun _ => true)
      (by
        intro i _ _
        by_cases h : i = 6 <;>
          simp [library_query_filter, library_query_new, LIBRARY_FIELD_ARTIST, Function.update, h])
      rfl rfl rfl).1,
   by decide⟩

/-! ## Pagination -/

theorem collect_pages_drop (run : library_query → List result_row) (query : library_query)
    (L : Int) (base : List result_row) (m : Nat) (hm : 0 < m)
    (hrun : ∀ k : Nat,
      run (library_query_offset (library_query_limit query L) (L * k)) =
        (base.drop (m * k)).take m)
    (fuel k : Nat) (hfuel : base.length ≤ fuel + m * k) :
    collect_pages run query L (fuel + 1) k = some (base.drop (m * k)) := by
  induction fuel generalizing k with
  | zero =>
    simp only [Nat.zero_add] at hfuel
    simp [collect_pages, hrun, List.drop_of_length_le hfuel]
  | succ fuel ih =>
    rw [collect_pages]
    simp only [hrun]
    by_cases hk : base.length ≤ m * k
    · simp [List.drop_of_length_le hk]
    · have hne : ((base.drop (m * k)).take m).isEmpty = false := by
        cases hd : base.drop (m * k) with
        | nil =>
          have := List.drop_eq_nil_iff.1 hd
          omega
        | cons x xs =>
          cases m with
          | zero => omega
          | succ m => rfl
      rw [hne, ih (k + 1) (by rw [Nat.mul_add]; omega)]
      simp only [Bool.false_eq_true, if_false, Option.map_some']
      congr 1
      rw [Nat.mul_add, Nat.mul_one, ← List.drop_drop, List.take_append_drop]

/-- C5: for a fixed query (filters and sort keys), a fixed table, an engine that
accepts the statements and every page size `L ≥ 1`, paging with `limit = L` at
offsets `0, L, 2L, ...` up to the first empty page always ends, and the pages
concatenated are the row sequence of the same query with the default limit
`-1` and offset `0`. -/
theorem pagination_consistent (order_by : String → List result_row → List result_row)
    (table : List result_row) (prepare_ok : String → Bool) (query : library_query)
    (L : Int) (fuel : Nat) (hL : 1 ≤ L) (hp : ∀ sql, prepare_ok sql = true)
    (hfuel : (run_query order_by table prepare_ok
      (library_query_offset (library_query_limit query (-1)) 0)).length < fuel) :
    collect_pages (run_query order_by table prepare_ok) query L fuel 0 =
      some (run_query order_by table prepare_ok
        (library_query_offset (library_query_limit query (-1)) 0)) := by
  have hall : run_query order_by table prepare_ok
      (library_query_offset (library_query_limit query (-1)) 0) =
      order_by query.order
        (table.filter (where_holds (library_query_binds query) 1 (set_fields query))) := by
    simp [run_query, library_query_start, hp, query_rows, limit_clause, library_query_offset,
      library_query_limit]
    rfl
  rw [hall] at hfuel ⊢
  obtain ⟨m, rfl⟩ : ∃ m : Nat, L = (m : Int) := ⟨L.toNat, (Int.toNat_of_nonneg (by omega)).symm⟩
  have hm : 0 < m := by omega
  have hrun : ∀ k : Nat, run_query order_by table prepare_ok
      (library_query_offset (library_query_limit query (m : Int)) ((m : Int) * k)) =
      ((order_by query.order
        (table.filter (where_holds (library_query_binds query) 1 (set_fields query)))).drop
          (m * k)).take m := by
    intro k
    have h1 : ((m : Int) * (k : Int)).toNat = m * k := by
      rw [← Int.natCast_mul, Int.toNat_natCast]
    have h2 : ¬ ((m : Int) < 0) := by omega
    have h3 : (0 : Int) < m := by omega
    simp [run_query, library_query_start, hp, query_rows, limit_clause, library_query_offset,
      library_query_limit, sql_limit, h1, h2, h3]
    rfl
  cases fuel with
  | zero => omega
  | succ fuel =>
    have := collect_pages_drop (run_query order_by table prepare_ok) query (m : Int) _ m hm hrun
      fuel 0 (by omega)
    simpa using this

/-- C5, witness: three rows, page size 2, table order: the pages `[1, 2]`, `[3]`
and the empty page give the three rows. -/
theorem pagination_consistent_witness :
    collect_pages (run_query (fun _ l => l)
        [{ trackid := 1, url := some "/a", track := 1, title := some "A", artistid := 1,
           artist := some "X", albumid := 1, album := some "P", start := 0, duration := 10 },
         { trackid := 2, url := some "/b", track := 2, title := some "B", artistid := 1,
           artist := some "X", albumid := 1, album := some "P", start := 0, duration := 20 },
         { trackid := 3, url := some "/c", track := 3, title := some "C", artistid := 1,
           artist := some "X", albumid := 1, album := some "P", start := 0, duration := 30 }]
        (fun _ => true)) library_query_new 2 4 0
      = some
        [{ trackid := 1, url := some "/a", track := 1, title := some "A", artistid := 1,
           artist := some "X", albumid := 1, album := some "P", start := 0, duration := 10 },
         { trackid := 2, url := some "/b", track := 2, title := some "B", artistid := 1,
           artist := some "X", albumid := 1, album := some "P", start := 0, duration := 20 },
         { trackid := 3, url := some "/c", track := 3, title := some "C", artistid := 1,
           artist := some "X", albumid := 1, album := some "P", start := 0, duration := 30 }] :=
  (pagination_consistent (fun _ l => l) _ (fun _ => true) library_query_new 2 4
    (by decide) (fun _ => rfl) (by decide)).trans (by decide)

/-! ## Get-or-create, track round trip and mtime at concrete states -/

/-- C6, at the failing input: in an artists table (names unique, every statement
succeeding) whose largest rowid is 4294967296, the first
`field_rowid_create("artists", "name", "y")` inserts the row and returns its
rowid 4294967297, and the second call finds that row and returns 1, the rowid
narrowed by `sqlite3_column_int` in `execute_scalar`. -/
theorem field_rowid_create_twice_differs :
    (field_rowid_create wide_artists "artists" "name" "y").1 = 4294967297 ∧
    (field_rowid_create (field_rowid_create wide_artists "artists" "name" "y").2
        "artists" "name" "y").1 = 1 ∧
    (field_rowid_create (field_rowid_create wide_artists "artists" "name" "y").2
        "artists" "name" "y").2.artists =
      [{ rowid := 4294967296, name := "x" }, { rowid := 4294967297, name := "y" }] := by
  decide

/-- C7, at the failing inputs: when the lookup cannot be prepared, `field_rowid`
reports `-1`, yet `field_rowid_create` goes on to insert the row and returns its
rowid 1; when the insert step fails, it returns the stale
`sqlite3_last_insert_rowid` (here 7), not `-1`. -/
theorem field_rowid_create_after_failure :
    (field_rowid { empty_database with faults := [true] } "artists" "name" "Band").1 = -1 ∧
    field_rowid_create { empty_database with faults := [true] } "artists" "name" "Band" =
      (1, { empty_database with artists := [{ rowid := 1, name := "Band" }],
                                last_insert_rowid := 1 }) ∧
    field_rowid_create
        { empty_database with last_insert_rowid := 7, faults := [false, false, false, true] }
        "artists" "name" "Band" =
      (7, { empty_database with last_insert_rowid := 7 }) := by
  decide

/-- C9, at the failing input: with an earlier track at rowid 2147483647,
`library_track_add` of the scenario's track to the existing url 1 succeeds and
returns 2147483648, and `library_track_by_id` of that id, bound through
`sqlite3_bind_int`, finds no record. -/
theorem track_by_id_misses_added_track :
    (library_track_add wide_tracks song 1).1 = 2147483648 ∧
    (wide_tracks.urls.map (fun u => u.rowid)) = [1] ∧
    (library_track_by_id (library_track_add wide_tracks song 1).2 2147483648).1 = none := by
  decide

/-- C9, the spec's scenario: in the library of the scenario the added track is
read back with path, title, artist, album and numbers as given, and the
directory counts one track. -/
theorem track_round_trip_scenario :
    (library_track_add music_library song 1).1 = 1 ∧
    (library_track_by_id (library_track_add music_library song 1).2 1).1 =
      some { id := 1, path := some "/music/a.flac", track := 1, title := some "Song",
             artistid := 1, artist := some "Band", albumid := 1, album := some "LP",
             start := 0, duration := 180 } ∧
    (library_directory_tracks_count (library_track_add music_library song 1).2 1).1 = 1 := by
  decide

/-- C10, at the failing input: after `library_url_mtime_set(1, 2147483648)` on the
existing url 1 the stored mtime is 2147483648, and `library_url_mtime(1)`
returns -2147483648; the same for directory 1.  With 1000 both return 1000. -/
theorem mtime_read_back_narrowed :
    (library_url_mtime_set music_library 1 2147483648).urls =
      [{ rowid := 1, path := "/music/a.flac", directory := 1, mtime := some 2147483648 }] ∧
    (library_url_mtime (library_url_mtime_set music_library 1 2147483648) 1).1
      = -2147483648 ∧
    (library_directory_mtime (library_directory_mtime_set music_library 1 2147483648) 1).1
      = -2147483648 ∧
    (library_url_mtime (library_url_mtime_set music_library 1 1000) 1).1 = 1000 ∧
    (library_directory_mtime (library_directory_mtime_set music_library 1 1000) 1).1
      = 1000 := by
  decide

/-! ## Cascading delete -/

theorem take_fault_none (d : database) (h : d.faults = []) : take_fault d = (false, d) := by
  unfold take_fault
  rw [h]

theorem prepare_query_none (d : database) (h : d.faults = []) :
    prepare_query d true = (true, d) := by
  simp [prepare_query, take_fault_none d h]

/-- Without engine failures `library_url_delete` removes the tracks and images of
the url and the url row, and nothing else. -/
theorem library_url_delete_none (d : database) (h : d.faults = []) (url : Int) :
    library_url_delete d url =
      { d with tracks := d.tracks.filter (fun r => r.url != url),
               images := d.images.filter (fun r => r.url != url),
               urls := d.urls.filter (fun r => r.rowid != url) } := by
  have h1 : ({ d with tracks := d.tracks.filter (fun r => r.url != url) } : database).faults
      = [] := h
  have h2 : ({ d with tracks := d.tracks.filter (fun r => r.url != url),
                      images := d.images.filter (fun r => r.url != url) } : database).faults
      = [] := h
  simp [library_url_delete, library_url_clear, prepare_query_none, take_fault_none, execute,
    delete_tracks_of_url, delete_images_of_url, delete_url_row, h, h1, h2]

theorem drop_url_ids_nil (d : database) : drop_url_ids d [] = d := by
  simp [drop_url_ids]

theorem drop_url_ids_cons (d : database) (h : d.faults = []) (u : Int) (ids : List Int) :
    drop_url_ids (library_url_delete d u) ids = drop_url_ids d (u :: ids) := by
  rw [library_url_delete_none d h]
  simp only [drop_url_ids, List.filter_filter, database.mk.injEq, true_and, and_true]
  refine ⟨?_, ?_, ?_⟩
  · apply List.filter_congr
    intro x _
    by_cases hx : x.rowid = u <;> simp [hx, Bool.and_comm]
  · apply List.filter_congr
    intro x _
    by_cases hx : x.url = u <;> simp [hx, Bool.and_comm]
  · apply List.filter_congr
    intro x _
    by_cases hx : x.url = u <;> simp [hx, Bool.and_comm]

theorem iterate_urls_delete (us : List url_row) (d : database) (h : d.faults = []) :
    iterate_loop delete_urls_cb us d = some (drop_url_ids d (us.map (fun r => r.rowid))) := by
  induction us generalizing d with
  | nil => simp [iterate_loop, take_fault_none d h, drop_url_ids_nil]
  | cons u us ih =>
    have h1 : (library_url_delete d u.rowid).faults = [] := by
      rw [library_url_delete_none d h]; exact h
    simp only [iterate_loop, take_fault_none d h, delete_urls_cb, List.map_cons]
    simp only [Bool.false_eq_true, if_false]
    rw [ih _ h1, drop_url_ids_cons d h]

theorem rowid_unique_urls (l : List url_row) (h : (l.map (fun r => r.rowid)).Nodup)
    (a b : url_row) (ha : a ∈ l) (hb : b ∈ l) (hab : a.rowid = b.rowid) : a = b :=
  List.inj_on_of_nodup_map h ha hb hab

theorem rowid_unique_directories (l : List directory_row)
    (h : (l.map (fun r => r.rowid)).Nodup)
    (a b : directory_row) (ha : a ∈ l) (hb : b ∈ l) (hab : a.rowid = b.rowid) : a = b :=
  List.inj_on_of_nodup_map h ha hb hab

theorem url_ids_contains_rowid (d : database) (hu : (d.urls.map (fun r => r.rowid)).Nodup)
    (D : Int) (x : url_row) (hx : x ∈ d.urls) :
    (((d.urls.filter (fun r => r.directory = D)).map (fun r => r.rowid)).contains x.rowid)
      = (x.directory == D) := by
  rw [Bool.eq_iff_iff]
  simp
  constructor
  · rintro ⟨y, ⟨hy, hyd⟩, hyx⟩
    have := rowid_unique_urls _ hu y x hy hx hyx
    rw [← this]; exact hyd
  · intro h; exact ⟨x, ⟨hx, h⟩, rfl⟩

theorem url_ids_contains_url (d : database) (D : Int) (id : Int) :
    (((d.urls.filter (fun r => r.directory = D)).map (fun r => r.rowid)).contains id)
      = (d.urls.any (fun u => u.rowid == id && (u.directory == D))) := by
  rw [Bool.eq_iff_iff]
  simp
  constructor
  · rintro ⟨y, ⟨hy, hyd⟩, hyx⟩; exact ⟨y, hy, hyx, hyd⟩
  · rintro ⟨y, hy, hyx, hyd⟩; exact ⟨y, ⟨hy, hyd⟩, hyx⟩

/-- Deleting the urls of directory `D` one by one is removing the urls whose
directory is `D` with their tracks and images. -/
theorem drop_url_ids_directory (d : database) (hu : (d.urls.map (fun r => r.rowid)).Nodup)
    (D : Int) :
    drop_url_ids d ((d.urls.filter (fun r => r.directory = D)).map (fun r => r.rowid)) =
      drop_urls d (fun x => x == D) := by
  simp only [drop_url_ids, drop_urls, database.mk.injEq, true_and, and_true]
  refine ⟨?_, ?_, ?_⟩
  · apply List.filter_congr
    intro x hx
    rw [url_ids_contains_rowid d hu D x hx]
  · apply List.filter_congr
    intro x _
    rw [url_ids_contains_url]
  · apply List.filter_congr
    intro x _
    rw [url_ids_contains_url]

theorem iterate_urls_by_directory_delete (d : database) (hc : consistent d) (D : Int) :
    library_iterate_urls_by_directory d D delete_urls_cb =
      some (drop_urls d (fun x => x == D)) := by
  unfold library_iterate_urls_by_directory
  rw [prepare_query_none d hc.1]
  simp only [Bool.not_true, Bool.false_eq_true, if_false]
  rw [iterate_urls_delete _ d hc.1, drop_url_ids_directory d hc.2.2]

/-! ### Composition of removals -/

theorem any_url_or (urls : List url_row) (A B : Int → Bool) (id : Int) :
    ((!(urls.filter (fun u => !A u.directory)).any
        (fun u => u.rowid == id && B u.directory)) &&
      !urls.any (fun u => u.rowid == id && A u.directory))
      = !urls.any (fun u => u.rowid == id && (A u.directory || B u.directory)) := by
  rw [Bool.eq_iff_iff]
  simp
  constructor
  · rintro ⟨h1, h2⟩ y hy hyx
    exact ⟨h2 y hy hyx, h1 y hy (h2 y hy hyx) hyx⟩
  · intro h
    exact ⟨fun y hy _ hyx => (h y hy hyx).2, fun y hy hyx => (h y hy hyx).1⟩

theorem drop_urls_drop_urls (d : database) (A B : Int → Bool) :
    drop_urls (drop_urls d A) B = drop_urls d (fun x => A x || B x) := by
  simp only [drop_urls, List.filter_filter, database.mk.injEq, true_and, and_true]
  refine ⟨?_, ?_, ?_⟩
  · apply List.filter_congr
    intro x _
    cases A x.directory <;> cases B x.directory <;> rfl
  · apply List.filter_congr
    intro x _
    exact any_url_or d.urls A B x.url
  · apply List.filter_congr
    intro x _
    exact any_url_or d.urls A B x.url

theorem drop_directories_drop_directories (d : database) (A B : Int → Bool) :
    drop_directories (drop_directories d A) B = drop_directories d (fun x => A x || B x) := by
  simp only [drop_directories, List.filter_filter, database.mk.injEq, true_and, and_true]
  apply List.filter_congr
  intro x _
  cases A x.rowid <;> cases B x.rowid <;> rfl

theorem drop_urls_drop_directories (d : database) (A B : Int → Bool) :
    drop_urls (drop_directories d A) B = drop_directories (drop_urls d B) A := rfl

theorem remove_subtree_remove_subtree (d : database) (A B : Int → Bool) :
    remove_subtree (remove_subtree d A) B = remove_subtree d (fun x => A x || B x) := by
  unfold remove_subtree
  rw [drop_urls_drop_directories, drop_urls_drop_urls, drop_directories_drop_directories]

theorem remove_subtree_none (d : database) : remove_subtree d (fun _ => false) = d := by
  have h : ∀ l : List url_row, l.any (fun _ => false) = false := by
    intro l
    induction l with
    | nil => rfl
    | cons a l ih => simp [List.any_cons, ih]
  simp [remove_subtree, drop_urls, drop_directories, h]

/-! ### Subtrees -/

theorem in_subtree_mono (l1 l2 : List directory_row) (h : ∀ r, r ∈ l1 → r ∈ l2) (D x : Int)
    (hx : in_subtree l1 D x) : in_subtree l2 D x := by
  induction hx with
  | root => exact in_subtree.root
  | child r hr _ ih => exact in_subtree.child r (h r hr) ih

theorem in_subtree_rank (dirs : List directory_row) (rank : Int → Nat)
    (hr : ∀ r ∈ dirs, rank r.rowid < rank r.parent) (A x : Int)
    (hx : in_subtree dirs A x) : x = A ∨ rank x < rank A := by
  induction hx with
  | root => left; rfl
  | child r hmem _ ih =>
    right
    have := hr r hmem
    rcases ih with h | h
    · rw [← h]; exact this
    · omega

theorem in_subtree_inv (dirs : List directory_row) (A x : Int) (hx : in_subtree dirs A x)
    (hne : x ≠ A) : ∃ r ∈ dirs, r.rowid = x ∧ in_subtree dirs A r.parent := by
  cases hx with
  | root => exact absurd rfl hne
  | child r hr hp => exact ⟨r, hr, rfl, hp⟩

theorem in_subtree_linear (dirs : List directory_row)
    (hn : (dirs.map (fun r => r.rowid)).Nodup) (A B x : Int)
    (ha : in_subtree dirs A x) (hb : in_subtree dirs B x) :
    in_subtree dirs A B ∨ in_subtree dirs B A := by
  induction ha with
  | root => right; exact hb
  | child r hr hp ih =>
    by_cases hB : r.rowid = B
    · left; rw [← hB]; exact in_subtree.child r hr hp
    · obtain ⟨r2, hr2, hid, hp2⟩ := in_subtree_inv dirs B r.rowid hb hB
      have := rowid_unique_directories dirs hn r2 r hr2 hr hid
      rw [this] at hp2
      exact ih hp2

theorem in_subtree_extend (dirs : List directory_row) (c : directory_row) (hc : c ∈ dirs)
    (x : Int) (hx : in_subtree dirs c.rowid x) : in_subtree dirs c.parent x := by
  induction hx with
  | root => exact in_subtree.child c hc in_subtree.root
  | child r hr _ ih => exact in_subtree.child r hr ih

theorem in_subtree_restrict (dirs : List directory_row) (S : Int → Bool) (c x : Int)
    (hx : in_subtree dirs c x) (hS : ∀ y, in_subtree dirs c y → S y = false) :
    in_subtree (dirs.filter (fun r => not (S r.rowid))) c x := by
  induction hx with
  | root => exact in_subtree.root
  | child r hr hp ih =>
    refine in_subtree.child r ?_ ih
    rw [List.mem_filter]
    exact ⟨hr, by rw [hS r.rowid (in_subtree.child r hr hp)]; rfl⟩

theorem in_subtree_children (dirs : List directory_row) (D x : Int)
    (hx : in_subtree dirs D x) :
    x = D ∨ ∃ c ∈ dirs, c.parent = D ∧ in_subtree dirs c.rowid x := by
  induction hx with
  | root => left; rfl
  | child r hr _ ih =>
    right
    rcases ih with h | ⟨c, hc, hcp, hcx⟩
    · exact ⟨r, hr, h, in_subtree.root⟩
    · exact ⟨c, hc, hcp, in_subtree.child r hr hcx⟩

/-- Two different children of one directory have no directory in common below
them. -/
theorem children_disjoint (dirs : List directory_row) (rank : Int → Nat)
    (hn : (dirs.map (fun r => r.rowid)).Nodup)
    (hr : ∀ r ∈ dirs, rank r.rowid < rank r.parent)
    (a b : directory_row) (ha : a ∈ dirs) (hb : b ∈ dirs) (hp : a.parent = b.parent)
    (hab : a.rowid ≠ b.rowid) (y : Int)
    (hya : in_subtree dirs a.rowid y) (hyb : in_subtree dirs b.rowid y) : False := by
  have key : ∀ (a b : directory_row), a ∈ dirs → b ∈ dirs → a.parent = b.parent →
      a.rowid ≠ b.rowid → in_subtree dirs a.rowid b.rowid → False := by
    intro a b ha hb hp hab h
    obtain ⟨r, hrm, hid, hpar⟩ := in_subtree_inv dirs a.rowid b.rowid h (Ne.symm hab)
    have hrb := rowid_unique_directories dirs hn r b hrm hb hid
    rw [hrb, ← hp] at hpar
    have h1 := hr a ha
    rcases in_subtree_rank dirs rank hr _ _ hpar with h2 | h2
    · rw [h2] at h1; omega
    · omega
  rcases in_subtree_linear dirs hn _ _ y hya hyb with h | h
  · exact key a b ha hb hp hab h
  · exact key b a hb ha hp.symm (Ne.symm hab) h

/-! ### Invariants kept by the removals -/

theorem consistent_drop_urls (d : database) (S : Int → Bool) (h : consistent d) :
    consistent (drop_urls d S) :=
  ⟨h.1, h.2.1, List.Nodup.sublist (List.Sublist.map _ (List.filter_sublist _)) h.2.2⟩

theorem consistent_drop_directories (d : database) (S : Int → Bool) (h : consistent d) :
    consistent (drop_directories d S) :=
  ⟨h.1, List.Nodup.sublist (List.Sublist.map _ (List.filter_sublist _)) h.2.1, h.2.2⟩

theorem consistent_remove_subtree (d : database) (S : Int → Bool) (h : consistent d) :
    consistent (remove_subtree d S) :=
  consistent_drop_directories _ S (consistent_drop_urls d S h)

theorem ranked_remove_subtree (rank : Int → Nat) (d : database) (S : Int → Bool)
    (h : ranked rank d) : ranked rank (remove_subtree d S) := by
  intro r hr
  exact h r (List.mem_of_mem_filter hr)

/-! ### The recursion -/

theorem iterate_children_delete (rank : Int → Nat) (fuel : Nat)
    (H : ∀ d c, consistent d → ranked rank d → rank c < fuel →
      ∃ S : Int → Bool, (∀ x, S x = true ↔ in_subtree d.directories c x) ∧
        library_directory_delete fuel d c = some (remove_subtree d S))
    (cs : List directory_row) (d : database) (hc : consistent d) (hr : ranked rank d)
    (hcs : ∀ c ∈ cs, rank c.rowid < fuel)
    (hdis : cs.Pairwise (fun a b => ∀ y, in_subtree d.directories a.rowid y →
      in_subtree d.directories b.rowid y → False)) :
    ∃ S : Int → Bool,
      (∀ x, S x = true ↔ ∃ c ∈ cs, in_subtree d.directories c.rowid x) ∧
      iterate_loop
        (fun d r => (library_directory_delete fuel d r.rowid).map (fun d => (true, d)))
        cs d = some (remove_subtree d S) := by
  induction cs generalizing d with
  | nil =>
    refine ⟨fun _ => false, by simp, ?_⟩
    simp [iterate_loop, take_fault_none d hc.1, remove_subtree_none]
  | cons c cs ih =>
    obtain ⟨Sc, hSc, hdel⟩ := H d c.rowid hc hr (hcs c (List.mem_cons_self _ _))
    obtain ⟨hhead, htail⟩ := List.pairwise_cons.1 hdis
    have hsub : ∀ r, r ∈ (remove_subtree d Sc).directories → r ∈ d.directories :=
      fun r hr => List.mem_of_mem_filter hr
    obtain ⟨S2, hS2, hloop⟩ := ih (remove_subtree d Sc) (consistent_remove_subtree d Sc hc)
      (ranked_remove_subtree rank d Sc hr)
      (fun c hc => hcs c (List.mem_cons_of_mem _ hc))
      (htail.imp (fun h y h1 h2 =>
        h y (in_subtree_mono _ _ hsub _ _ h1) (in_subtree_mono _ _ hsub _ _ h2)))
    refine ⟨fun x => Sc x || S2 x, ?_, ?_⟩
    · intro x
      simp only [Bool.or_eq_true, hSc, hS2]
      constructor
      · rintro (h | ⟨b, hb, h⟩)
        · exact ⟨c, List.mem_cons_self _ _, h⟩
        · exact ⟨b, List.mem_cons_of_mem _ hb, in_subtree_mono _ _ hsub _ _ h⟩
      · rintro ⟨b, hb, h⟩
        rcases List.mem_cons.1 hb with rfl | hb
        · left; exact h
        · right
          refine ⟨b, hb, in_subtree_restrict d.directories Sc b.rowid x h ?_⟩
          intro y hy
          cases hSy : Sc y with
          | false => rfl
          | true => exact absurd ((hSc y).1 hSy) (fun h1 => hhead b hb y h1 hy)
    · simp only [iterate_loop, take_fault_none d hc.1, hdel, Option.map_some',
        Bool.false_eq_true, if_false]
      rw [hloop, remove_subtree_remove_subtree]

/-- On a consistent library with acyclic parent links `library_directory_delete`
returns once the fuel exceeds the rank of the directory, and what it leaves is
the library without the subtree of the directory. -/
theorem library_directory_delete_subtree (rank : Int → Nat) (fuel : Nat) :
    ∀ (d : database) (D : Int), consistent d → ranked rank d → rank D < fuel →
      ∃ S : Int → Bool, (∀ x, S x = true ↔ in_subtree d.directories D x) ∧
        library_directory_delete fuel d D = some (remove_subtree d S) := by
  induction fuel with
  | zero => intro d D _ _ h; omega
  | succ fuel ih =>
    intro d D hc hr hfuel
    have hc1 : consistent (drop_urls d (fun x => x == D)) := consistent_drop_urls d _ hc
    have hr1 : ranked rank (drop_urls d (fun x => x == D)) := fun r hm => hr r hm
    have hpair : (d.directories.filter (fun r => r.parent = D)).Pairwise
        (fun a b => ∀ y, in_subtree d.directories a.rowid y →
          in_subtree d.directories b.rowid y → False) := by
      have hp0 : d.directories.Pairwise (fun a b => a.rowid ≠ b.rowid) :=
        List.pairwise_map.1 hc.2.1
      refine (hp0.sublist (List.filter_sublist _)).imp_of_mem ?_
      intro a b ha hb hab y h1 h2
      rw [List.mem_filter] at ha hb
      have hpa : a.parent = D := by simpa using ha.2
      have hpb : b.parent = D := by simpa using hb.2
      exact children_disjoint d.directories rank hc.2.1 hr a b ha.1 hb.1
        (hpa.trans hpb.symm) hab y h1 h2
    obtain ⟨SC, hSC, hloop⟩ := iterate_children_delete rank fuel ih
      (d.directories.filter (fun r => r.parent = D)) (drop_urls d (fun x => x == D)) hc1 hr1
      (by
        intro c hcm
        rw [List.mem_filter] at hcm
        have hp : c.parent = D := by simpa using hcm.2
        have := hr c hcm.1
        rw [hp] at this
        omega)
      hpair
    refine ⟨fun x => x == D || SC x, ?_, ?_⟩
    · intro x
      simp only [Bool.or_eq_true, beq_iff_eq, hSC]
      constructor
      · rintro (h | ⟨c, hcm, h⟩)
        · rw [h]; exact in_subtree.root
        · rw [List.mem_filter] at hcm
          have hp : c.parent = D := by simpa using hcm.2
          rw [← hp]
          exact in_subtree_extend d.directories c hcm.1 x h
      · intro h
        rcases in_subtree_children d.directories D x h with h1 | ⟨c, hcm, hp, h1⟩
        · left; exact h1
        · right
          exact ⟨c, List.mem_filter.2 ⟨hcm, by simpa using hp⟩, h1⟩
    · rw [library_directory_delete, iterate_urls_by_directory_delete d hc D]
      dsimp only
      unfold library_iterate_directories
      rw [prepare_query_none _ hc1.1]
      simp only [Bool.not_true, Bool.false_eq_true, if_false]
      have hloop2 : iterate_loop
          (fun d r => (library_directory_delete fuel d r.rowid).map (fun d => (true, d)))
          ((drop_urls d (fun x => x == D)).directories.filter (fun r => r.parent = D))
          (drop_urls d (fun x => x == D)) = some (remove_subtree (drop_urls d (fun x => x == D)) SC) :=
        hloop
      rw [hloop2]
      dsimp only
      have hc2 := consistent_remove_subtree _ SC hc1
      rw [prepare_query_none _ hc2.1]
      simp only [Bool.not_true, Bool.false_eq_true, if_false, execute, take_fault_none _ hc2.1,
        delete_directory_row, Option.some.injEq]
      have e1 : ∀ d2 : database,
          ({ d2 with directories := d2.directories.filter (fun r => r.rowid != D) } : database)
            = drop_directories d2 (fun x => x == D) := fun _ => rfl
      rw [e1]
      unfold remove_subtree
      rw [drop_urls_drop_urls, drop_directories_drop_directories]
      have e2 : (fun x => SC x || x == D) = (fun x => x == D || SC x) :=
        funext (fun x => Bool.or_comm _ _)
      rw [e2]

/-- C8: on a library whose rowids are unique, whose directories' parent links
are acyclic (ranked) and whose statements all succeed, `library_directory_delete`
of `D` returns (any fuel above the rank of `D`), and it leaves exactly the
library without the subtree of `D`: no remaining directory is `D` or below it,
no remaining url has its directory there, no remaining track or image
references a url that was there, and every other row of every table is kept in
place. -/
theorem directory_delete_cascade (rank : Int → Nat) (fuel : Nat) (d : database) (D : Int)
    (hc : consistent d) (hr : ranked rank d) (hfuel : rank D < fuel) :
    ∃ (S : Int → Bool) (d2 : database),
      (∀ x, S x = true ↔ in_subtree d.directories D x) ∧
      library_directory_delete fuel d D = some d2 ∧
      d2 = remove_subtree d S ∧
      (∀ r ∈ d2.directories, ¬ in_subtree d.directories D r.rowid) ∧
      (∀ u ∈ d2.urls, ¬ in_subtree d.directories D u.directory) ∧
      (∀ t ∈ d2.tracks, ∀ u ∈ d.urls, u.rowid = t.url →
        ¬ in_subtree d.directories D u.directory) ∧
      (∀ i ∈ d2.images, ∀ u ∈ d.urls, u.rowid = i.url →
        ¬ in_subtree d.directories D u.directory) ∧
      d2.artists = d.artists ∧ d2.albums = d.albums := by
  obtain ⟨S, hS, hdel⟩ := library_directory_delete_subtree rank fuel d D hc hr hfuel
  refine ⟨S, remove_subtree d S, hS, hdel, rfl, ?_, ?_, ?_, ?_, rfl, rfl⟩
  · intro r hm h
    have h1 : (not (S r.rowid)) = true := (List.mem_filter.1 hm).2
    rw [(hS _).2 h] at h1
    exact absurd h1 (by decide)
  · intro u hm h
    have h1 : (not (S u.directory)) = true := (List.mem_filter.1 hm).2
    rw [(hS _).2 h] at h1
    exact absurd h1 (by decide)
  · intro t hm u hu hut h
    have h1 : (not (d.urls.any (fun u => u.rowid == t.url && S u.directory))) = true :=
      (List.mem_filter.1 hm).2
    have h2 : d.urls.any (fun u => u.rowid == t.url && S u.directory) = true :=
      List.any_eq_true.2 ⟨u, hu, by simp [hut, (hS _).2 h]⟩
    rw [h2] at h1
    exact absurd h1 (by decide)
  · intro i hm u hu hui h
    have h1 : (not (d.urls.any (fun u => u.rowid == i.url && S u.directory))) = true :=
      (List.mem_filter.1 hm).2
    have h2 : d.urls.any (fun u => u.rowid == i.url && S u.directory) = true :=
      List.any_eq_true.2 ⟨u, hu, by simp [hui, (hS _).2 h]⟩
    rw [h2] at h1
    exact absurd h1 (by decide)

/-- C8, witness: deleting `/music` from `tree_library` removes `/music` and
`/music/a` with their urls, tracks and image, and keeps `/other` whole. -/
theorem directory_delete_cascade_witness :
    (∃ (S : Int → Bool) (d2 : database),
      (∀ x, S x = true ↔ in_subtree tree_library.directories 1 x) ∧
      library_directory_delete 3 tree_library 1 = some d2 ∧
      d2 = remove_subtree tree_library S ∧
      (∀ r ∈ d2.directories, ¬ in_subtree tree_library.directories 1 r.rowid) ∧
      (∀ u ∈ d2.urls, ¬ in_subtree tree_library.directories 1 u.directory) ∧
      (∀ t ∈ d2.tracks, ∀ u ∈ tree_library.urls, u.rowid = t.url →
        ¬ in_subtree tree_library.directories 1 u.directory) ∧
      (∀ i ∈ d2.images, ∀ u ∈ tree_library.urls, u.rowid = i.url →
        ¬ in_subtree tree_library.directories 1 u.directory) ∧
      d2.artists = tree_library.artists ∧ d2.albums = tree_library.albums) ∧
    library_directory_delete 3 tree_library 1 =
      some { tree_library with
        directories := [{ rowid := 3, path := "/other", parent := 0, mtime := none }],
        urls := [{ rowid := 3, path := "/other/z.flac", directory := 3, mtime := none }],
        tracks := [
          { rowid := 3, url := 3, track := 1, title := some "Z", artist := 1, album := 1,
            start := 0, duration := 30 }],
        images := [] } :=
  ⟨directory_delete_cascade tree_rank 3 tree_library 1
      ⟨rfl, by decide, by decide⟩ (by unfold ranked; decide) (by decide),
    by decide⟩

/-! ## What holds inside the 32-bit range -/

theorem to_int32_of_range (x : Int) (h1 : -2147483648 ≤ x) (h2 : x ≤ 2147483647) :
    to_int32 x = x := by
  unfold to_int32
  omega

theorem find_url_after_update (l : List url_row) (U m : Int)
    (h : ∃ r ∈ l, r.rowid = U) :
    ∃ r, (l.map (fun r => if r.rowid = U then { r with mtime := some m } else r)).find?
        (fun r => r.rowid = U) = some r ∧ r.mtime = some m := by
  induction l with
  | nil => simp at h
  | cons a l ih =>
    by_cases ha : a.rowid = U
    · exact ⟨{ a with mtime := some m }, by simp [ha], rfl⟩
    · obtain ⟨r, hr, hU⟩ := h
      rcases List.mem_cons.1 hr with rfl | hr
      · exact absurd hU ha
      · obtain ⟨r2, h1, h2⟩ := ih ⟨r, hr, hU⟩
        exact ⟨r2, by simp [ha, h1], h2⟩

/-- Inside the range of a C `int` the mtime checkpoint reads back: for an existing
url `U`, statements succeeding and `m` a 32-bit value, `library_url_mtime_set(U, m)`
followed by `library_url_mtime(U)` returns `m`, and the rows of all other urls
are unchanged. -/
theorem url_mtime_round_trip_int32 (d : database) (U m : Int) (hf : d.faults = [])
    (hU : ∃ r ∈ d.urls, r.rowid = U)
    (h1 : -2147483648 ≤ m) (h2 : m ≤ 2147483647) :
    (library_url_mtime (library_url_mtime_set d U m) U).1 = m ∧
    ∀ r ∈ d.urls, r.rowid ≠ U → r ∈ (library_url_mtime_set d U m).urls := by
  have hset : library_url_mtime_set d U m = (update_url_mtime m U d).2 := by
    simp [library_url_mtime_set, prepare_query_none d hf, execute, take_fault_none d hf,
      update_url_mtime]
  rw [hset]
  have hf2 : (update_url_mtime m U d).2.faults = [] := hf
  constructor
  · obtain ⟨r, hr, hm⟩ := find_url_after_update d.urls U m hU
    have hr2 : (update_url_mtime m U d).2.urls.find? (fun r => r.rowid = U) = some r := hr
    simp only [library_url_mtime, prepare_query_none _ hf2, execute_scalar,
      take_fault_none _ hf2, select_url_mtime, hr2, hm, Bool.not_true, Bool.false_eq_true,
      if_false, Option.getD_some]
    exact to_int32_of_range m h1 h2
  · intro r hr hne
    exact List.mem_map.2 ⟨r, hr, by simp [hne]⟩

theorem foldl_max_ge (xs : List Int) (x : Int) :
    x ≤ xs.foldl max x ∧ (∀ y ∈ xs, y ≤ xs.foldl max x) ∧
      (xs.foldl max x = x ∨ xs.foldl max x ∈ xs) := by
  induction xs generalizing x with
  | nil => simp
  | cons a xs ih =>
    obtain ⟨h1, h2, h3⟩ := ih (max x a)
    simp only [List.foldl_cons, List.mem_cons, forall_eq_or_imp]
    refine ⟨le_trans (le_max_left _ _) h1, ⟨le_trans (le_max_right _ _) h1, h2⟩, ?_⟩
    rcases h3 with h | h
    · rcases max_choice x a with hm | hm
      · left; rw [h, hm]
      · right; left; rw [h, hm]
    · right; right; exact h

theorem next_rowid_range (ids : List Int) (B : Int) (h : ∀ x ∈ ids, 0 < x ∧ x < B)
    (hB : 0 < B) : 0 < next_rowid ids ∧ next_rowid ids ≤ B := by
  cases ids with
  | nil => simp [next_rowid]; omega
  | cons a xs =>
    obtain ⟨h1, _, h3⟩ := foldl_max_ge xs a
    have ha := h a (List.mem_cons_self _ _)
    simp only [next_rowid]
    rcases h3 with h3 | h3
    · rw [h3]; omega
    · have := h _ (List.mem_cons_of_mem _ h3)
      omega

theorem field_rowid_artists (d : database) (hf : d.faults = []) (s : String) :
    field_rowid d "artists" "name" s =
      (match d.artists.find? (fun r => r.name = s) with
       | some r => to_int32 r.rowid
       | none => 0, d) := by
  have hv : table_has_field "artists" "name" = true := by decide
  simp only [field_rowid, hv, prepare_query_none d hf, execute_scalar, take_fault_none d hf,
    select_rowid, Bool.not_true, Bool.false_eq_true, if_false, and_self, if_true]
  cases d.artists.find? (fun r => r.name = s) <;> rfl

theorem filter_name_of_nodup (l : List artist_row) (s : String)
    (hn : (l.map (fun r => r.name)).Nodup) (r : artist_row) (hr : r ∈ l) (hs : r.name = s) :
    (l.filter (fun r => r.name = s)).length = 1 := by
  induction l with
  | nil => simp at hr
  | cons a l ih =>
    simp only [List.map_cons, List.nodup_cons, List.mem_map, not_exists, not_and] at hn
    by_cases ha : a.name = s
    · have hnone : l.filter (fun r => decide (r.name = s)) = [] := by
        rw [List.filter_eq_nil_iff]
        intro b hb
        have := hn.1 b hb
        simp only [decide_eq_true_eq]
        intro hbs
        exact this (hbs.trans ha.symm)
      simp [List.filter_cons, ha, hnone]
    · rcases List.mem_cons.1 hr with rfl | hr
      · exact absurd hs ha
      · simp [List.filter_cons, ha, ih hn.2 hr]

/-- Inside the range of a C `int` get-or-create is idempotent: on an artists table
with unique names and rowids in `1 .. 2147483646`, statements succeeding, two
successive `field_rowid_create("artists", "name", s)` return the same positive
id, and afterwards exactly one artists row has the name `s`. -/
theorem artist_get_or_create_twice_int32 (d : database) (s : String) (hf : d.faults = [])
    (hn : (d.artists.map (fun r => r.name)).Nodup)
    (hr : ∀ r ∈ d.artists, 0 < r.rowid ∧ r.rowid < 2147483647) :
    (field_rowid_create d "artists" "name" s).1 =
      (field_rowid_create (field_rowid_create d "artists" "name" s).2 "artists" "name" s).1 ∧
    0 < (field_rowid_create d "artists" "name" s).1 ∧
    ((field_rowid_create (field_rowid_create d "artists" "name" s).2
      "artists" "name" s).2.artists.filter (fun r => r.name = s)).length = 1 := by
  have hv : table_has_field "artists" "name" = true := by decide
  cases hfind : d.artists.find? (fun r => r.name = s) with
  | some r =>
    have hmem := List.mem_of_find?_eq_some hfind
    have hname : r.name = s := by simpa using List.find?_some hfind
    have hrow := hr r hmem
    have h32 : to_int32 r.rowid = r.rowid := to_int32_of_range _ (by omega) (by omega)
    have hcall : field_rowid_create d "artists" "name" s = (r.rowid, d) := by
      simp [field_rowid_create, field_rowid_artists d hf, hfind, h32, hrow.1]
    rw [hcall]
    dsimp only
    rw [hcall]
    exact ⟨rfl, hrow.1, filter_name_of_nodup _ s hn r hmem hname⟩
  | none =>
    have hany : d.artists.any (fun r => decide (r.name = s)) = false := by
      rw [List.any_eq_false]
      intro x hx
      exact List.find?_eq_none.1 hfind x hx
    obtain ⟨hpos, hle⟩ := next_rowid_range (d.artists.map (fun r => r.rowid)) 2147483647
      (by
        intro x hx
        obtain ⟨r, hrm, rfl⟩ := List.mem_map.1 hx
        exact hr r hrm) (by decide)
    have h32 : to_int32 (next_rowid (d.artists.map (fun r => r.rowid))) =
        next_rowid (d.artists.map (fun r => r.rowid)) := to_int32_of_range _ (by omega) hle
    have hcall : field_rowid_create d "artists" "name" s =
        (next_rowid (d.artists.map (fun r => r.rowid)),
          (insert_name "artists" "name" s d).2) := by
      simp [field_rowid_create, field_rowid_artists d hf, hfind, hv, prepare_query_none d hf,
        execute_scalar, take_fault_none d hf, insert_name, hany]
    have hf2 : (insert_name "artists" "name" s d).2.faults = [] := by
      simp [insert_name, hany, hf]
    have hart : (insert_name "artists" "name" s d).2.artists =
        d.artists ++ [{ rowid := next_rowid (d.artists.map (fun r => r.rowid)), name := s }] := by
      simp [insert_name, hany]
    have hfind2 : (insert_name "artists" "name" s d).2.artists.find? (fun r => r.name = s) =
        some { rowid := next_rowid (d.artists.map (fun r => r.rowid)), name := s } := by
      rw [hart, List.find?_append, hfind]
      simp
    have hcall2 : field_rowid_create (insert_name "artists" "name" s d).2 "artists" "name" s =
        (next_rowid (d.artists.map (fun r => r.rowid)),
          (insert_name "artists" "name" s d).2) := by
      simp [field_rowid_create, field_rowid_artists _ hf2, hfind2, h32, hpos]
    rw [hcall]
    dsimp only
    rw [hcall2]
    refine ⟨rfl, hpos, ?_⟩
    dsimp only
    rw [hart, List.filter_append]
    have hnone : d.artists.filter (fun r => decide (r.name = s)) = [] := by
      rw [List.filter_eq_nil_iff]
      intro x hx
      simpa using List.find?_eq_none.1 hfind x hx
    simp [hnone]

/-! ## The field-name mapping -/

theorem field_from_string_loop_none (s : String) (n i : Nat)
    (h : ∀ j, i ≤ j → j < i + n → s ≠ field_names.getD j "") :
    field_from_string_loop s i n = LIBRARY_FIELD_NONE := by
  induction n generalizing i with
  | zero => rfl
  | succ n ih =>
    rw [field_from_string_loop, if_neg (h i (Nat.le_refl _) (by omega))]
    exact ih (i + 1) (fun j h1 h2 => h j (by omega) (by omega))

theorem field_names_named (j : Nat) (h1 : 1 ≤ j) (h2 : j ≤ 10) :
    field_names.getD j "" ∈ named_fields := by
  interval_cases j <;> decide

theorem library_field_from_string_name (f : Nat) (h1 : 1 ≤ f) (h2 : f ≤ 10) :
    library_field_from_string (field_names.getD f "") = f := by
  interval_cases f <;> decide

theorem library_field_from_string_other (s : String) (hs : s ∉ named_fields) :
    library_field_from_string s = LIBRARY_FIELD_NONE := by
  apply field_from_string_loop_none
  intro j h1 h2 heq
  apply hs
  rw [heq]
  exact field_names_named j h1 (by unfold LIBRARY_FIELD_ALL at h2; omega)

/-- C13: `library_field_from_string` maps the name of every field `f` from
`trackid` (1) to `duration` (10) to `f` itself, so the ten names go to ten
different fields, and it returns `LIBRARY_FIELD_NONE` for every string that is
not one of the ten names: the empty string, a name in another case, and any
name one might give the synthetic all-text field, which has no entry in
`field_names`. -/
theorem library_field_from_string_mapping (f : Nat) (s : String)
    (hf1 : LIBRARY_FIELD_TRACKID ≤ f) (hf2 : f ≤ LIBRARY_FIELD_DURATION)
    (hs : s ∉ named_fields) :
    library_field_from_string (field_names.getD f "") = f ∧
    field_names.getD f "" ∈ named_fields ∧
    library_field_from_string s = LIBRARY_FIELD_NONE ∧
    field_names.drop 1 = named_fields ∧ named_fields.Nodup ∧
    library_field_from_string "" = LIBRARY_FIELD_NONE ∧
    library_field_from_string "Title" = LIBRARY_FIELD_NONE ∧
    library_field_from_string "ARTIST" = LIBRARY_FIELD_NONE ∧
    library_field_from_string "all" = LIBRARY_FIELD_NONE ∧
    library_field_from_string (field_maps.getD LIBRARY_FIELD_ALL "") = LIBRARY_FIELD_NONE :=
  ⟨library_field_from_string_name f hf1 hf2, field_names_named f hf1 hf2,
    library_field_from_string_other s hs, by decide, by decide, by decide, by decide,
    by decide, by decide, by decide⟩

/-- C13, witness: `field_names[4]` is `title` and maps to 4; `Title` maps to no
field. -/
theorem library_field_from_string_mapping_witness :
    library_field_from_string "title" = LIBRARY_FIELD_TITLE ∧
    library_field_from_string "Title" = LIBRARY_FIELD_NONE :=
  ⟨(library_field_from_string_mapping 4 "Title" (by decide) (by decide) (by decide)).1,
    (library_field_from_string_mapping 4 "Title" (by decide) (by decide) (by decide)).2.2.1⟩

/-! ## The sort parser token by token -/

theorem sort_calls_cons (q : library_query) (k : Nat × Bool) (keys : List (Nat × Bool)) :
    sort_calls q (k :: keys) = sort_calls (library_query_sort q k.1 k.2) keys := rfl

/-- When every token names a field the run returns 0 and has made one
`library_query_sort` call per token, in order. -/
theorem sort_tokens_run_all (q : library_query) (ts : List (List Char))
    (h : ∀ t ∈ ts, token_field t ≠ LIBRARY_FIELD_NONE) :
    sort_tokens_run q ts = (0, sort_calls q (ts.map token_key)) := by
  induction ts generalizing q with
  | nil => rfl
  | cons t ts ih =>
    rw [sort_tokens_run, if_neg (h t (List.mem_cons_self _ _)), List.map_cons, sort_calls_cons]
    exact ih _ (fun u hu => h u (List.mem_cons_of_mem _ hu))

/-- When token `k` is the first that names no field the run returns `-1` and has
made the `library_query_sort` calls of the `k` tokens before it, in order. -/
theorem sort_tokens_run_first_bad (q : library_query) (ts : List (List Char)) (k : Nat)
    (hbad : (ts[k]?).map token_field = some LIBRARY_FIELD_NONE)
    (hgood : ∀ t ∈ ts.take k, token_field t ≠ LIBRARY_FIELD_NONE) :
    sort_tokens_run q ts = (-1, sort_calls q ((ts.take k).map token_key)) := by
  induction ts generalizing q k with
  | nil => simp at hbad
  | cons t ts ih =>
    cases k with
    | zero =>
      have ht : token_field t = LIBRARY_FIELD_NONE := by simpa using hbad
      rw [sort_tokens_run, if_pos ht]
      rfl
    | succ k =>
      have ht : token_field t ≠ LIBRARY_FIELD_NONE :=
        hgood t (by simp)
      rw [sort_tokens_run, if_neg ht, List.take_succ_cons, List.map_cons, sort_calls_cons]
      apply ih
      · simpa using hbad
      · intro u hu
        exact hgood u (by rw [List.take_succ_cons]; exact List.mem_cons_of_mem _ hu)

/-- C14: when token `k` of the sort string is the first that names no field
(tokens as the parser cuts them), `library_query_sort_from_string` returns `-1`
and the query is the one before the call after the `library_query_sort` calls
of exactly the first `k` tokens, in order; nothing after the bad token
contributes.  The empty token of `title,,artist` and the token `-` name no
field; the empty string has no token and `title,` has the one token `title`,
and both are accepted with return 0. -/
theorem sort_from_string_first_bad (q : library_query) (s : String) (k : Nat)
    (hbad : ((sort_tokens s.data)[k]?).map token_field = some LIBRARY_FIELD_NONE)
    (hgood : ∀ t ∈ (sort_tokens s.data).take k, token_field t ≠ LIBRARY_FIELD_NONE) :
    library_query_sort_from_string q s =
      some (-1, sort_calls q (((sort_tokens s.data).take k).map token_key)) ∧
    sort_tokens "title,,artist".data = ["title".data, [], "artist".data] ∧
    token_field [] = LIBRARY_FIELD_NONE ∧
    sort_tokens "-".data = [['-']] ∧ token_field ['-'] = LIBRARY_FIELD_NONE ∧
    sort_tokens "".data = [] ∧
    library_query_sort_from_string q "" = some (0, q) ∧
    sort_tokens "title,".data = ["title".data] ∧
    library_query_sort_from_string q "title," =
      some (0, library_query_sort q LIBRARY_FIELD_TITLE false) := by
  refine ⟨?_, by decide, by decide, by decide, by decide, by decide, ?_, by decide, ?_⟩
  · rw [library_query_sort_from_string_eq, sort_tokens_run_first_bad q _ k hbad hgood]
  · rw [library_query_sort_from_string_eq]
    rfl
  · rw [library_query_sort_from_string_eq]
    have ht : sort_tokens "title,".data = ["title".data] := by decide
    rw [ht, sort_tokens_run_all q _ (by decide)]
    rfl

/-- C14, witness: in `title,,artist` the second token is empty, so on a fresh
query the call returns `-1` with the key of `title` alone in the order; with
`bogus,title` nothing is appended. -/
theorem sort_from_string_first_bad_witness :
    library_query_sort_from_string library_query_new "title,,artist" =
      some (-1, sort_calls library_query_new [(LIBRARY_FIELD_TITLE, false)]) ∧
    (sort_calls library_query_new [(LIBRARY_FIELD_TITLE, false)]).order =
      "tracks.title COLLATE NOCASE ASC" ∧
    (library_query_sort_from_string library_query_new "-artist,bogus,title").map
      (fun r => (r.1, r.2.order)) = some (-1, "artists.name COLLATE NOCASE DESC") :=
  ⟨(sort_from_string_first_bad library_query_new "title,,artist" 1 (by decide) (by decide)).1,
    by decide, by decide⟩

/-! ## A sort string written from keys -/

theorem sort_tokens_single (t : List Char) (hne : t ≠ []) (hc : ∀ c ∈ t, c ≠ ',') :
    sort_tokens t = [t] := by
  induction t with
  | nil => exact absurd rfl hne
  | cons c t ih =>
    have h1 : c ≠ ',' := hc c (List.mem_cons_self _ _)
    cases t with
    | nil => simp [sort_tokens, h1]
    | cons d t =>
      have := ih (by simp) (fun x hx => hc x (List.mem_cons_of_mem _ hx))
      rw [sort_tokens, if_neg h1, this]

theorem sort_tokens_append_comma (t rest : List Char) (hc : ∀ c ∈ t, c ≠ ',') :
    sort_tokens (t ++ ',' :: rest) = t :: sort_tokens rest := by
  induction t with
  | nil => simp [sort_tokens]
  | cons c t ih =>
    have h1 : c ≠ ',' := hc c (List.mem_cons_self _ _)
    have := ih (fun x hx => hc x (List.mem_cons_of_mem _ hx))
    rw [List.cons_append, sort_tokens, if_neg h1, this]

/-- Cutting a comma-joined list of tokens gives the tokens back, when no token
is empty or holds a comma. -/
theorem sort_tokens_join_commas (ts : List (List Char))
    (h : ∀ t ∈ ts, t ≠ [] ∧ ∀ c ∈ t, c ≠ ',') :
    sort_tokens (join_commas ts) = ts := by
  induction ts with
  | nil => rfl
  | cons t ts ih =>
    have ht := h t (List.mem_cons_self _ _)
    cases ts with
    | nil => exact sort_tokens_single t ht.1 ht.2
    | cons u ts =>
      rw [join_commas, sort_tokens_append_comma t _ ht.2,
        ih (fun x hx => h x (List.mem_cons_of_mem _ hx))]

theorem key_token_named (f : Nat) (d : Bool) (h1 : 1 ≤ f) (h2 : f ≤ 10) :
    key_token (f, d) ≠ [] ∧ (∀ c ∈ key_token (f, d), c ≠ ',') ∧
      token_key (key_token (f, d)) = (f, d) := by
  interval_cases f <;> cases d <;> decide

theorem key_text_length (k : Nat × Bool) : 0 < (key_text k).length := by
  unfold key_text
  rw [String.length_append, String.length_append]
  have : (" COLLATE NOCASE " : String).length = 16 := by decide
  omega

theorem sort_calls_order_append (q : library_query) (keys : List (Nat × Bool))
    (hq : 0 < q.order.length) :
    (sort_calls q keys).order = q.order ++ more_keys (keys.map key_text) := by
  induction keys generalizing q with
  | nil => simp [sort_calls, more_keys]
  | cons k keys ih =>
    have ho : (library_query_sort q k.1 k.2).order = q.order ++ ", " ++ key_text k := by
      simp [library_query_sort, hq, key_text, String.append_assoc]
    rw [sort_calls_cons, ih _ (by rw [ho, String.length_append]; have := key_text_length k; omega),
      ho, List.map_cons, more_keys]
    simp only [String.append_assoc]

theorem join_keys_cons (t : String) (ts : List String) :
    join_keys (t :: ts) = t ++ more_keys ts := by
  induction ts generalizing t with
  | nil => simp [join_keys, more_keys]
  | cons u ts ih =>
    rw [join_keys, ih u, more_keys]
    simp only [String.append_assoc]

/-- On a query whose order is empty a sequence of sort calls leaves the key
texts joined by `", "`. -/
theorem sort_calls_order_fresh (q : library_query) (keys : List (Nat × Bool))
    (hq : q.order = "") :
    (sort_calls q keys).order = join_keys (keys.map key_text) := by
  cases keys with
  | nil => simpa [sort_calls, join_keys] using hq
  | cons k keys =>
    have ho : (library_query_sort q k.1 k.2).order = key_text k := by
      simp [library_query_sort, hq, key_text, String.append_assoc]
    rw [sort_calls_cons, sort_calls_order_append _ _ (by rw [ho]; exact key_text_length k), ho,
      List.map_cons, join_keys_cons]

/-- C12: for every list of sort keys over the named fields `trackid .. duration`
(the empty list included), parsing the string made of the field names joined by
`,`, with `-` in front of each descending one, returns 0 and leaves the query
exactly as the calls `library_query_sort(q, field, descending)` for the keys in
list order leave it; on a query whose order was empty that order is the key
texts `<column> COLLATE NOCASE ASC|DESC` joined by `", "` in token order. -/
theorem sort_string_parses_as_calls (q : library_query) (keys : List (Nat × Bool))
    (hnamed : ∀ k ∈ keys, LIBRARY_FIELD_TRACKID ≤ k.1 ∧ k.1 ≤ LIBRARY_FIELD_DURATION) :
    library_query_sort_from_string q (sort_string keys) = some (0, sort_calls q keys) ∧
    (q.order = "" → (sort_calls q keys).order = join_keys (keys.map key_text)) := by
  refine ⟨?_, sort_calls_order_fresh q keys⟩
  have htok : sort_tokens (sort_string keys).data = keys.map key_token := by
    apply sort_tokens_join_commas
    intro t ht
    obtain ⟨k, hk, rfl⟩ := List.mem_map.1 ht
    have := key_token_named k.1 k.2 (hnamed k hk).1 (hnamed k hk).2
    exact ⟨this.1, this.2.1⟩
  have hkeys : (keys.map key_token).map token_key = keys := by
    rw [List.map_map]
    conv => rhs; rw [← List.map_id keys]
    apply List.map_congr_left
    intro k hk
    exact (key_token_named k.1 k.2 (hnamed k hk).1 (hnamed k hk).2).2.2
  rw [library_query_sort_from_string_eq, htok, sort_tokens_run_all, hkeys]
  intro t ht
  obtain ⟨k, hk, rfl⟩ := List.mem_map.1 ht
  have h3 := (key_token_named k.1 k.2 (hnamed k hk).1 (hnamed k hk).2).2.2
  have h4 : token_field (key_token k) = k.1 := congrArg Prod.fst h3
  rw [h4]
  have := (hnamed k hk).1
  unfold LIBRARY_FIELD_TRACKID at this
  unfold LIBRARY_FIELD_NONE
  omega

/-- C12, witness: the keys title ascending, artist descending, duration
ascending give the string `title,-artist,duration`, which parses on a fresh
query to the three keys in that order. -/
theorem sort_string_parses_as_calls_witness :
    sort_string [(LIBRARY_FIELD_TITLE, false), (LIBRARY_FIELD_ARTIST, true),
      (LIBRARY_FIELD_DURATION, false)] = "title,-artist,duration" ∧
    library_query_sort_from_string library_query_new "title,-artist,duration" =
      some (0, sort_calls library_query_new [(LIBRARY_FIELD_TITLE, false),
        (LIBRARY_FIELD_ARTIST, true), (LIBRARY_FIELD_DURATION, false)]) ∧
    (sort_calls library_query_new [(LIBRARY_FIELD_TITLE, false),
        (LIBRARY_FIELD_ARTIST, true), (LIBRARY_FIELD_DURATION, false)]).order =
      "tracks.title COLLATE NOCASE ASC, artists.name COLLATE NOCASE DESC, tracks.duration COLLATE NOCASE ASC" :=
  ⟨by decide,
    (sort_string_parses_as_calls library_query_new [(LIBRARY_FIELD_TITLE, false),
      (LIBRARY_FIELD_ARTIST, true), (LIBRARY_FIELD_DURATION, false)] (by decide)).1,
    by decide⟩

/-! ## Track insertion and the owning url -/

theorem insert_name_keeps (d : database) (table field value : String) :
    (insert_name table field value d).2.faults = d.faults ∧
      (insert_name table field value d).2.tracks = d.tracks := by
  unfold insert_name
  split
  · split <;> exact ⟨rfl, rfl⟩
  · split
    · split <;> exact ⟨rfl, rfl⟩
    · exact ⟨rfl, rfl⟩

theorem select_rowid_state (d : database) (table field value : String) :
    (select_rowid table field value d).2 = d := by
  unfold select_rowid
  dsimp only
  split <;> rfl

theorem execute_scalar_state (d : database) (hf : d.faults = [])
    (stmt : database → step_result × database) :
    (execute_scalar d stmt).2 = (stmt d).2 := by
  unfold execute_scalar
  simp only [take_fault_none d hf, Bool.false_eq_true, if_false]
  cases stmt d with
  | mk r d2 => cases r <;> rfl

theorem field_rowid_state (d : database) (hf : d.faults = []) (table field value : String) :
    (field_rowid d table field value).2 = d := by
  unfold field_rowid prepare_query
  simp only [take_fault_none d hf, Bool.not_false, Bool.and_true]
  cases table_has_field table field
  · rfl
  · simp only [Bool.not_true, Bool.false_eq_true, if_false]
    rw [execute_scalar_state d hf, select_rowid_state]

/-- Without engine failures `field_rowid_create` leaves the engine without
failures and does not touch `tracks`. -/
theorem field_rowid_create_keeps (d : database) (hf : d.faults = [])
    (table field value : String) :
    (field_rowid_create d table field value).2.faults = [] ∧
      (field_rowid_create d table field value).2.tracks = d.tracks := by
  have hlook := field_rowid_state d hf table field value
  unfold field_rowid_create
  dsimp only
  split
  · rw [hlook]; exact ⟨hf, rfl⟩
  · rw [hlook]
    unfold prepare_query
    simp only [take_fault_none d hf, Bool.not_false, Bool.and_true]
    cases table_has_field table field
    · exact ⟨hf, rfl⟩
    · simp only [Bool.not_true, Bool.false_eq_true, if_false]
      rw [execute_scalar_state d hf]
      have hk := insert_name_keeps d table field value
      exact ⟨hk.1.trans hf, hk.2⟩

/-- C11, as stated, fails: `library_track_add` of the scenario's track with the
absent url 0 on an empty library returns the new rowid 1 and inserts a tracks
row with url 0, an artists row and an albums row; the same with url -5. -/
theorem track_add_absent_url_counterexample :
    library_track_add empty_database song 0 =
      (1, { empty_database with
            artists := [{ rowid := 1, name := "Band" }],
            albums := [{ rowid := 1, name := "LP", image := none }],
            tracks := [
              { rowid := 1, url := 0, track := 1, title := some "Song", artist := 1,
                album := 1, start := 0, duration := 180 }],
            last_insert_rowid := 1 }) ∧
    (library_track_add empty_database song (-5)).1 = 1 ∧
    (library_track_add empty_database song (-5)).2.tracks.map (fun t => t.url) = [-5] := by
  decide

theorem execute_insert_track (d : database) (hf : d.faults = []) (url track : Int)
    (title : Option String) (artist album start duration : Int) :
    execute d (insert_track url track title artist album start duration) =
      (true, (insert_track url track title artist album start duration d).2) := by
  simp [execute, take_fault_none d hf, insert_track]

/-- The last step of `library_track_add` on a state without failures whose
`tracks` are those of `d`: the row is appended with the url as given and its
rowid is returned. -/
theorem track_add_tail (d d2 : database) (hf : d2.faults = []) (ht : d2.tracks = d.tracks)
    (url : Int) (track : track_t) (artist album : Int) :
    ∃ row : track_row,
      (if (!(execute d2 (insert_track url track.track track.title artist album track.start
              track.duration)).1) = true
        then ((-1 : Int), (execute d2 (insert_track url track.track track.title artist album
              track.start track.duration)).2)
        else ((execute d2 (insert_track url track.track track.title artist album track.start
              track.duration)).2.last_insert_rowid,
            (execute d2 (insert_track url track.track track.title artist album track.start
              track.duration)).2)) =
        (row.rowid, { d2 with tracks := d.tracks ++ [row], last_insert_rowid := row.rowid }) ∧
      row.url = url ∧ row.rowid = next_rowid (d.tracks.map (fun r => r.rowid)) := by
  rw [execute_insert_track d2 hf]
  refine ⟨{ rowid := next_rowid (d.tracks.map (fun r => r.rowid)), url := url,
            track := track.track, title := track.title, artist := artist, album := album,
            start := track.start, duration := track.duration }, ?_, rfl, rfl⟩
  simp [insert_track, ht]

/-- C11, amended: `library_track_add` does not look at the url.  When its insert
statement cannot be prepared it returns `-1` and no tracks, artists or albums
row is inserted, whatever the url; when every statement succeeds it appends one
tracks row that carries the url exactly as given, absent (`url <= 0`) or not,
and returns the rowid of that row. -/
theorem track_add_url_unchecked (d : database) (track : track_t) (url : Int)
    (fs : List Bool) (hf : d.faults = []) :
    library_track_add { d with faults := true :: fs } track url =
      (-1, { d with faults := fs }) ∧
    ∃ row : track_row,
      (library_track_add d track url).2.tracks = d.tracks ++ [row] ∧
      row.url = url ∧ row.rowid = next_rowid (d.tracks.map (fun r => r.rowid)) ∧
      (library_track_add d track url).1 = row.rowid := by
  constructor
  · simp [library_track_add, prepare_query, take_fault]
  · unfold library_track_add
    rw [prepare_query_none d hf]
    simp only [Bool.not_true, Bool.false_eq_true, if_false]
    cases track.artist with
    | none =>
      cases track.album with
      | none =>
        obtain ⟨row, h1, h2, h3⟩ := track_add_tail d d hf rfl url track 0 0
        exact ⟨row, by rw [h1], h2, h3, by rw [h1]⟩
      | some b =>
        obtain ⟨hf2, ht2⟩ := field_rowid_create_keeps d hf "albums" "name" b
        obtain ⟨row, h1, h2, h3⟩ := track_add_tail d _ hf2 ht2 url track 0
          (field_rowid_create d "albums" "name" b).1
        exact ⟨row, by rw [h1], h2, h3, by rw [h1]⟩
    | some a =>
      obtain ⟨hf1, ht1⟩ := field_rowid_create_keeps d hf "artists" "name" a
      cases track.album with
      | none =>
        obtain ⟨row, h1, h2, h3⟩ := track_add_tail d _ hf1 ht1 url track
          (field_rowid_create d "artists" "name" a).1 0
        exact ⟨row, by rw [h1], h2, h3, by rw [h1]⟩
      | some b =>
        obtain ⟨hf2, ht2⟩ := field_rowid_create_keeps
          (field_rowid_create d "artists" "name" a).2 hf1 "albums" "name" b
        obtain ⟨row, h1, h2, h3⟩ := track_add_tail d _ hf2 (ht2.trans ht1) url track
          (field_rowid_create d "artists" "name" a).1
          (field_rowid_create (field_rowid_create d "artists" "name" a).2
            "albums" "name" b).1
        exact ⟨row, by rw [h1], h2, h3, by rw [h1]⟩

/-- C11, witness: on the scenario's library, whose engine does not fail, the
track with url 0 is appended as row 1 with url 0, and with a failing prepare
nothing is inserted. -/
theorem track_add_url_unchecked_witness :
    library_track_add { music_library with faults := [true] } song 0 =
      (-1, { music_library with faults := [] }) ∧
    (∃ row : track_row,
      (library_track_add music_library song 0).2.tracks = music_library.tracks ++ [row] ∧
      row.url = 0 ∧ row.rowid = next_rowid (music_library.tracks.map (fun r => r.rowid)) ∧
      (library_track_add music_library song 0).1 = row.rowid) ∧
    (library_track_add music_library song 0).1 = 1 :=
  ⟨(track_add_url_unchecked music_library song 0 [] rfl).1,
    (track_add_url_unchecked music_library song 0 [] rfl).2, by decide⟩

end Library
